import Mathlib

/-!
# ipstack client: request templates, lookups and response resolution

A shallow embedding of `src/ipstack.go`.

Modelling conventions.

* Go `string` and `[]byte` values are Lean strings; a nil `[]byte` is `none`.
* Go pointers are addresses into per-type stores held in `State`; a nil
  pointer is `none`.  Stores are total maps with an allocation counter.
* `url.Values` is a reference type: a template holds the address of its
  parameter map, so `copy` duplicates the address and shares the map.
* A Go panic (nil dereference) is the result `none` of an `Option`-valued
  operation.
* The collaborators outside the repository (`net.ParseIP`, the HTTP
  transport, `encoding/json`) are the fields of `Env`.
-/

set_option autoImplicit false

namespace Ipstack

/-- Address of an object in one of the stores of `State`. -/
abbrev Addr := Nat

/-! ## Library functions used by the source -/

/-- The white space of `unicode.IsSpace`, as used by `strings.TrimSpace`. -/
def isSpace (c : Char) : Bool :=
  let n := c.toNat
  (9 ≤ n && n ≤ 13) || n == 32 || n == 0x85 || n == 0xA0 || n == 0x1680 ||
  (0x2000 ≤ n && n ≤ 0x200a) || n == 0x2028 || n == 0x2029 || n == 0x202f ||
  n == 0x205f || n == 0x3000

/-- Go `strings.TrimSpace`: drop leading and trailing white space. -/
def TrimSpace (s : String) : String :=
  String.mk ((s.data.dropWhile isSpace).reverse.dropWhile isSpace).reverse

/-- Go `strings.Join`. -/
def Join : List String → String → String
  | [], _ => ""
  | [a], _ => a
  | a :: b :: rest, sep => a ++ sep ++ Join (b :: rest) sep

/-- The `%s` verbs of a format string are replaced, left to right, by the
arguments (the only verb the envelope constructors are called with). -/
def sprintfChars : List Char → List String → List Char
  | '%' :: 's' :: rest, a :: args => a.data ++ sprintfChars rest args
  | c :: rest, args => c :: sprintfChars rest args
  | [], _ => []

/-- Go `fmt.Sprintf`, restricted to `%s`. -/
def Sprintf (format : String) (args : List String) : String :=
  String.mk (sprintfChars format.data args)

/-- UTF-8 encoding of one character. -/
def utf8Bytes (c : Char) : List Nat :=
  let n := c.toNat
  if n < 0x80 then [n]
  else if n < 0x800 then [0xC0 + n / 64, 0x80 + n % 64]
  else if n < 0x10000 then [0xE0 + n / 4096, 0x80 + (n / 64) % 64, 0x80 + n % 64]
  else [0xF0 + n / 262144, 0x80 + (n / 4096) % 64, 0x80 + (n / 64) % 64, 0x80 + n % 64]

/-- Upper-case hexadecimal digit, `"0123456789ABCDEF"[n]`. -/
def upperhex (n : Nat) : Char :=
  if n < 10 then Char.ofNat (48 + n) else Char.ofNat (55 + n)

/-- Go `url.shouldEscape` in query-component mode: only ASCII letters,
digits and `-`, `_`, `.`, `~` stay as they are. -/
def shouldEscape (b : Nat) : Bool :=
  !((97 ≤ b && b ≤ 122) || (65 ≤ b && b ≤ 90) || (48 ≤ b && b ≤ 57) ||
    b == 45 || b == 95 || b == 46 || b == 126)

/-- One byte of `url.QueryEscape`: a space becomes `+`, an escaped byte `%XX`. -/
def escapeByte (b : Nat) : List Char :=
  if b == 32 then ['+']
  else if shouldEscape b then ['%', upperhex (b / 16), upperhex (b % 16)]
  else [Char.ofNat b]

/-- Go `url.QueryEscape`. -/
def QueryEscape (s : String) : String :=
  String.mk (s.data.flatMap fun c => (utf8Bytes c).flatMap escapeByte)

/-- Go `url.Values`, a `map[string][]string`, as an association list with
one entry per key. -/
structure Values where
  entries : List (String × List String)
deriving DecidableEq, Repr

/-- Go `url.Values.Get`: the first value of the key, `""` when there is none. -/
def Values.Get (v : Values) (key : String) : String :=
  match v.entries.lookup key with
  | some (x :: _) => x
  | _ => ""

/-- Replace the values of `key` in an association list, adding the key when
it is new. -/
def setEntry : List (String × List String) → String → String → List (String × List String)
  | [], key, value => [(key, [value])]
  | (k, vs) :: rest, key, value =>
    if k = key then (key, [value]) :: rest else (k, vs) :: setEntry rest key value

/-- Go `url.Values.Set`: the key now has exactly the one value. -/
def Values.Set (v : Values) (key value : String) : Values :=
  ⟨setEntry v.entries key value⟩

/-- Lexicographic order on code points, which is the byte order of the
UTF-8 encodings that Go compares. -/
def lessChars : List Char → List Char → Bool
  | _, [] => false
  | [], _ :: _ => true
  | a :: as, b :: bs => decide (a.toNat < b.toNat) || (a.toNat == b.toNat && lessChars as bs)

/-- Go `a < b` on strings. -/
def strLess (a b : String) : Bool :=
  lessChars a.data b.data

/-- The keys of the map in increasing order, as `slices.Sort` leaves them. -/
def Values.sortedKeys (v : Values) : List String :=
  (v.entries.map Prod.fst).insertionSort (fun a b => strLess a b = true)

/-- Go `url.Values.Encode`: `key=value` pairs, both escaped, sorted by key
and joined by `&`. -/
def Values.Encode (v : Values) : String :=
  Join (v.sortedKeys.flatMap fun k =>
    ((v.entries.lookup k).getD []).map fun x => QueryEscape k ++ "=" ++ QueryEscape x) "&"

/-! ## Constants -/

/-- Default Web API endpoint. -/
def cApiEndpointHTTP : String := "http://api.ipstack.com/"

/-- SSL Web API endpoint. -/
def cApiEndpointHTTPS : String := "https://api.ipstack.com/"

/-- The security query fragment. -/
def securityParam : String := "security=1"

/-! ## Data model -/

/-- Go `tError`: the Web API error message. -/
structure tError where
  RawCode : Int
  RawType : String
  RawInfo : String
deriving DecidableEq, Repr

/-- Go `tResponseError`: the shape stage 1 decodes a body into. -/
structure tResponseError where
  Success : Bool
  Error : tError
deriving DecidableEq, Repr

/-- Go `tResponseLocLang`. -/
structure tResponseLocLang where
  Code : String
  Name : String
  NativeName : String
deriving DecidableEq, Repr

/-- Go `tResponseLoc`. -/
structure tResponseLoc where
  GeonameID : Int
  Capital : String
  Languages : List tResponseLocLang
  CountryFlagLink : String
  CountryFlagEmoji : String
  CountryFlagEmojiUnicode : String
  CallingCode : String
  IsEU : Bool
deriving DecidableEq, Repr

/-- Go `tResponseTimeZone`; the `time.Time` value is kept as its text. -/
structure tResponseTimeZone where
  ID : String
  CurrentTime : String
  GMTOffset : Int
  Code : String
  IsDaylightSaving : Bool
deriving DecidableEq, Repr

/-- Go `tResponseCurrency`. -/
structure tResponseCurrency where
  Code : String
  Name : String
  Plural : String
  Symbol : String
  SymbolNative : String
deriving DecidableEq, Repr

/-- Go `tResponseConnection`. -/
structure tResponseConnection where
  ASN : Int
  ISP : String
deriving DecidableEq, Repr

/-- Go `tResponseSecurity`; the `interface{}` value is kept as its JSON text. -/
structure tResponseSecurity where
  IsProxy : Bool
  ProxyType : String
  IsCrawler : Bool
  CrawlerName : String
  CrawlerType : String
  IsTOR : Bool
  ThreatLevel : String
  ThreatTypes : Option String
deriving DecidableEq, Repr

/-- Go `Response`, the decoded lookup result.  The two `float32` fields are
kept as their bit patterns: the program only stores them. -/
structure Response where
  IP : String
  Hostname : String
  Type_ : String
  ContinentCode : String
  ContinentName : String
  CountryCode : String
  CountryName : String
  RegionCode : String
  RegionName : String
  City : String
  Zip : String
  Latitide : Nat
  Longitude : Nat
  Location : Option tResponseLoc
  Timezone : Option tResponseTimeZone
  Currency : Option tResponseCurrency
  Connection : Option tResponseConnection
  Security : Option tResponseSecurity
deriving DecidableEq, Repr

/-- The zero value `Response{}`. -/
def Response.zero : Response :=
  { IP := "", Hostname := "", Type_ := "", ContinentCode := "", ContinentName := "",
    CountryCode := "", CountryName := "", RegionCode := "", RegionName := "",
    City := "", Zip := "", Latitide := 0, Longitude := 0, Location := none,
    Timezone := none, Currency := none, Connection := none, Security := none }

/-- A Go `error` value: built by `fmt.Errorf`, a `*tError`, or an error
handed back by a library (`net/http`, `io`, `encoding/json`). -/
inductive GoError where
  | errorf (msg : String)
  | api (e : tError)
  | lib (msg : String)
deriving DecidableEq, Repr

/-- Go `(*tError).Error`: `"[<code>]: <type> (<info>)"`. -/
def tError.Error (e : tError) : String :=
  "[" ++ toString e.RawCode ++ "]: " ++ e.RawType ++ " (" ++ e.RawInfo ++ ")"

/-- The `Error()` text of an error value, as `%s` prints it. -/
def GoError.Error : GoError → String
  | .errorf msg => msg
  | .api e => e.Error
  | .lib msg => msg

/-- An `http.Client` value; the program never looks inside one. -/
abbrev HttpClient := Nat

/-- Go `tRequest`: the request template.  `client` is a `*http.Client`;
`reqArgs` is the address of the `url.Values` map (every template is born in
`New` with a fresh map and `copy` keeps the reference, so the map is never
nil). -/
structure tRequest where
  token : String
  client : Option HttpClient
  endpoint : String
  reqArgs : Addr
  reqArgsBuilt : String
  securityEnabled : Bool
deriving DecidableEq, Repr

/-- Go `tResponse`: the envelope of one execution. -/
structure tResponse where
  RawData : Option String
  Error : Option GoError
deriving DecidableEq, Repr

/-- Go `Client`: `me` is a `*Response`, `baseReq` a `*tRequest`. -/
structure Client where
  me : Option Addr
  baseReq : Option Addr
  skipInitFetchMe : Bool
deriving DecidableEq, Repr

/-- The outcome of `http.Client.Get` followed by `ioutil.ReadAll`. -/
inductive GetResult where
  | getErr (msg : String)
  | nilBody
  | readErr (msg : String)
  | body (b : String)
deriving DecidableEq, Repr

/-- The collaborators outside the repository.

* `ParseIP s` says whether `net.ParseIP(s)` is non-nil.
* `Get client calls url` is what the transport answers to a GET of `url`
  through `client` after the earlier calls `calls`.
* `UnmarshalError raw v` is `json.Unmarshal(raw, &v)` for a `tResponseError`:
  the value left in `v` and the error.
* `UnmarshalRecord raw v` is the same for a `*Response` destination.
* `UnmarshalRecordPtr raw p` is the same for a `**Response` destination: `p`
  is the pointer it holds (`none` for nil, `some v` for a pointer to a record
  with contents `v`), the result is that pointer afterwards.  A pointer that
  was not nil and is not nil afterwards is the same pointer: the decoder
  writes into the record it points at.
* `UnmarshalList raw l` is the same for a `*[]*Response` destination holding
  the slice `l`; `none` is the nil slice, a `none` element a nil pointer. -/
structure Env where
  ParseIP : String → Bool
  Get : HttpClient → List String → String → GetResult
  UnmarshalError : String → tResponseError → tResponseError × Option String
  UnmarshalRecord : String → Response → Response × Option String
  UnmarshalRecordPtr : String → Option Response → Option Response × Option String
  UnmarshalList : String → Option (List (Option Response)) →
    Option (List (Option Response)) × Option String

/-- The memory of the program and the log of its network calls. -/
structure State where
  requests : Addr → tRequest
  nextRequest : Addr
  values : Addr → Values
  nextValues : Addr
  records : Addr → Response
  nextRecord : Addr
  clients : Addr → Client
  nextClient : Addr
  DefaultClient : Option Addr
  calls : List String

/-- Store `t` at the template address `a`. -/
def State.setRequest (s : State) (a : Addr) (t : tRequest) : State :=
  { s with requests := Function.update s.requests a t }

/-- Store `v` at the map address `a`. -/
def State.setValues (s : State) (a : Addr) (v : Values) : State :=
  { s with values := Function.update s.values a v }

/-- Store `r` at the record address `a`. -/
def State.setRecord (s : State) (a : Addr) (r : Response) : State :=
  { s with records := Function.update s.records a r }

/-- Store `c` at the client address `a`. -/
def State.setClient (s : State) (a : Addr) (c : Client) : State :=
  { s with clients := Function.update s.clients a c }

/-! ## Envelopes -/

/-- Go `resp`. -/
def resp (rawData : Option String) (err : Option GoError) : tResponse :=
  { RawData := rawData, Error := err }

/-- Go `resps`: the error is built from the format string unless it is empty. -/
def resps (rawData : Option String) (serr : String) (args : List String) : tResponse :=
  if serr ≠ "" then { RawData := rawData, Error := some (.errorf (Sprintf serr args)) }
  else { RawData := rawData, Error := none }

/-! ## Request template -/

/-- Go `(*tRequest).copy`: a new template holding a copy of the fields of
`r`, the address of the parameter map included. -/
def tRequest.copy (s : State) (r : Option Addr) : State × Option Addr :=
  match r with
  | none => (s, none)
  | some a =>
    ({ s with requests := Function.update s.requests s.nextRequest (s.requests a),
              nextRequest := s.nextRequest + 1 }, some s.nextRequest)

/-- Go `(*tRequest).UseHTTPS`. -/
def tRequest.UseHTTPS (s : State) (r : Option Addr) (is : Bool) : State × Option Addr :=
  match r with
  | none => (s, none)
  | some a =>
    let s := if is = true then
      s.setRequest a { s.requests a with endpoint := cApiEndpointHTTPS } else s
    let s := if is = false then
      s.setRequest a { s.requests a with endpoint := cApiEndpointHTTP } else s
    (s, some a)

/-- Go `(*tRequest).EnableSecuity`. -/
def tRequest.EnableSecuity (s : State) (r : Option Addr) (is : Bool) : State × Option Addr :=
  match r with
  | none => (s, none)
  | some a =>
    let s := if is = true then
      s.setRequest a { s.requests a with securityEnabled := true } else s
    (s, some a)

/-- Go `(*tRequest).Fields`. -/
def tRequest.Fields (s : State) (r : Option Addr) (fields : List String) :
    State × Option Addr :=
  match r with
  | none => (s, none)
  | some a =>
    if fields.length = 0 then (s, some a)
    else
      let m := (s.requests a).reqArgs
      let rf := (s.values m).Get "fields"
      let fields := if rf ≠ "" then fields ++ [rf] else fields
      let s := s.setValues m ((s.values m).Set "fields" (Join fields ","))
      let s := s.setRequest a
        { s.requests a with reqArgsBuilt := "?" ++ (s.values m).Encode }
      (s, some a)

/-- Go `(*tRequest).validate`. -/
def tRequest.validate (s : State) (r : Option Addr) : Option GoError :=
  match r with
  | none => some (.errorf "Nil request object")
  | some a =>
    if (s.requests a).client = none then
      some (.errorf "Nil http.Client object in request")
    else none

/-- The request target `do` builds for the path segment `method`. -/
def tRequest.target (t : tRequest) (method : String) : String :=
  let url := t.endpoint ++ method ++ t.reqArgsBuilt
  if t.securityEnabled then url ++ "&" ++ securityParam else url

/-- The envelope `do` returns for each outcome of the call. -/
def GetResult.envelope : GetResult → tResponse
  | .getErr msg => resp none (some (.lib msg))
  | .nilBody => resps none "Body of GET response is nil" []
  | .body b => resp (some b) none
  | .readErr msg => resps none "Error reading Body of GET response (%s)" [msg]

/-- Go `(*tRequest).do`: build the target, issue the call, drain the body.
The result is `none` when `r` or its client is nil (a nil dereference). -/
def tRequest.do_ (env : Env) (s : State) (r : Option Addr) (method : String) :
    Option (State × tResponse) :=
  match r with
  | none => none
  | some a =>
    let url := (s.requests a).target method
    match (s.requests a).client with
    | none => none
    | some client =>
      some ({ s with calls := s.calls ++ [url] }, (env.Get client s.calls url).envelope)

/-- Go `(*tRequest).IP`. -/
def tRequest.IP (env : Env) (s : State) (r : Option Addr) (ip : String) :
    Option (State × tResponse) :=
  match tRequest.validate s r with
  | some err => some (s, resp none (some err))
  | none =>
    let ip := TrimSpace ip
    if ip = "" then some (s, resps none "Empty IP" [])
    else if env.ParseIP ip = false then some (s, resps none "Invalid IP (%s)" [ip])
    else tRequest.do_ env s r ip

/-- The loop of `(*tRequest).IPs`: the trimmed entries that are not empty
and parse, in input order. -/
def validIps (env : Env) : List String → List String
  | [] => []
  | ip :: rest =>
    let ip := TrimSpace ip
    if ip = "" then validIps env rest
    else if env.ParseIP ip = false then validIps env rest
    else ip :: validIps env rest

/-- Go `(*tRequest).IPs`. -/
def tRequest.IPs (env : Env) (s : State) (r : Option Addr) (ips : List String) :
    Option (State × tResponse) :=
  match tRequest.validate s r with
  | some err => some (s, resp none (some err))
  | none =>
    if ips.length = 0 then some (s, resps none "No IP passed" [])
    else
      let valid := validIps env ips
      if valid.length = 0 then some (s, resps none "No valid IP passed" [])
      else tRequest.do_ env s r (Join valid ",")

/-- Go `(*tRequest).Me`. -/
def tRequest.Me (env : Env) (s : State) (r : Option Addr) : Option (State × tResponse) :=
  match tRequest.validate s r with
  | some err => some (s, resp none (some err))
  | none => tRequest.do_ env s r "check"

/-! ## Response resolver -/

/-- Go `(*tResponse).CheckError`, stage 1.  The envelope is updated in place:
the first component is the envelope after the call. -/
def tResponse.CheckError (env : Env) (r : Option tResponse) :
    Option tResponse × Option GoError :=
  match r with
  | none => (none, some (.errorf "Nil RAW response object"))
  | some r =>
    match r.Error with
    | some e => (some r, some e)
    | none =>
      let errApi : tResponseError := { Success := true, Error := ⟨0, "", ""⟩ }
      let out := env.UnmarshalError (r.RawData.getD "") errApi
      let errApi := out.1
      let r := { r with Error := out.2.map GoError.lib }
      match r.Error with
      | some e => (some r, some (.errorf (Sprintf "Decode JSON error (%s)" [e.Error])))
      | none =>
        if errApi.Success = false then
          (some { r with Error := some (.api errApi.Error) }, some (.api errApi.Error))
        else (some r, none)

/-- Go `(*tResponse).DecodeTo`, stage 2.  `i` is the destination (`none` for
a nil interface) and `unmarshal` the decoder of its type; the first component
is the destination after the call. -/
def tResponse.DecodeTo {α : Type} (unmarshal : String → α → α × Option String)
    (r : Option tResponse) (i : Option α) : Option α × Option GoError :=
  match r with
  | none => (i, some (.errorf "Nil RAW response object"))
  | some r =>
    match r.Error with
    | some e => (i, some e)
    | none =>
      match i with
      | none => (none, some (.errorf "Nil destination argument"))
      | some d =>
        let out := unmarshal (r.RawData.getD "") d
        (some out.1, out.2.map GoError.lib)

/-! ## API errors -/

/-- Go `(*tError).Code`; `none` is the nil receiver. -/
def tError.Code (e : Option tError) : Int :=
  match e with
  | none => 0
  | some e => e.RawCode

/-- Go `(*tError).Type`; `none` is the nil receiver. -/
def tError.Type_ (e : Option tError) : String :=
  match e with
  | none => ""
  | some e => e.RawType

/-- Go `(*tError).Info`; `none` is the nil receiver. -/
def tError.Info (e : Option tError) : String :=
  match e with
  | none => ""
  | some e => e.RawInfo

/-- Go `APIError`: the `*tError` behind an error value, nil for a nil error
and for an error of another type. -/
def APIError (e : Option GoError) : Option tError :=
  match e with
  | none => none
  | some (.api op) => some op
  | some _ => none

/-! ## Client -/

/-- Go `(*Client).validate`. -/
def Client.validate (s : State) (c : Option Addr) : Option GoError :=
  match c with
  | none => some (.errorf "Nil client object")
  | some a =>
    if (s.clients a).baseReq = none then some (.errorf "Incorrect internal state")
    else none

/-- Go `(*Client).R`. -/
def Client.R (s : State) (c : Option Addr) : Option (State × Option Addr) :=
  match Client.validate s c, c with
  | some _, _ => some (s, none)
  | none, none => none
  | none, some a => some (tRequest.copy s (s.clients a).baseReq)

/-- Go `(*Client).IP`.  The record returned is a fresh one, given by its
contents. -/
def Client.IP (env : Env) (s : State) (c : Option Addr) (ip : String) :
    Option (State × Option Response × Option GoError) :=
  match Client.validate s c, c with
  | some err, _ => some (s, none, some err)
  | none, none => none
  | none, some a =>
    match tRequest.IP env s (s.clients a).baseReq ip with
    | none => none
    | some (s, rr) =>
      let chk := tResponse.CheckError env (some rr)
      match chk.2 with
      | some err => some (s, none, some err)
      | none =>
        let dec := tResponse.DecodeTo env.UnmarshalRecord chk.1 (some Response.zero)
        match dec.2 with
        | some err => some (s, none, some err)
        | none => some (s, dec.1, none)

/-- Go `(*Client).IPs`.  The slice returned is given by its contents, `none`
being the nil slice. -/
def Client.IPs (env : Env) (s : State) (c : Option Addr) (ips : List String) :
    Option (State × Option (List (Option Response)) × Option GoError) :=
  match Client.validate s c, c with
  | some err, _ => some (s, none, some err)
  | none, none => none
  | none, some a =>
    match tRequest.IPs env s (s.clients a).baseReq ips with
    | none => none
    | some (s, rr) =>
      let chk := tResponse.CheckError env (some rr)
      match chk.2 with
      | some err => some (s, none, some err)
      | none =>
        let dec := tResponse.DecodeTo env.UnmarshalList chk.1 (some (some []))
        match dec.2 with
        | some err => some (s, none, some err)
        | none => some (s, dec.1.join, none)

/-- Allocate a record holding `Response{}`. -/
def State.newRecord (s : State) : State × Addr :=
  ({ s with records := Function.update s.records s.nextRecord Response.zero,
            nextRecord := s.nextRecord + 1 }, s.nextRecord)

/-- The local `r` of `Client.Me` before decoding: the cached record, or a
new one when nothing is cached. -/
def Client.meTarget (s : State) (me : Option Addr) : State × Addr :=
  match me with
  | some p => (s, p)
  | none => s.newRecord

/-- Go `(*Client).Me`.  The record is returned by its address. -/
def Client.Me (env : Env) (s : State) (c : Option Addr) (forceFetch : List Bool) :
    Option (State × Option Addr × Option GoError) :=
  match Client.validate s c, c with
  | some err, _ => some (s, none, some err)
  | none, none => none
  | none, some a =>
    let ff := decide (forceFetch.length > 0) && forceFetch.headD false
    if (s.clients a).me ≠ none ∧ ff = false then some (s, (s.clients a).me, none)
    else
      match tRequest.Me env s (s.clients a).baseReq with
      | none => none
      | some (s, rr) =>
        let chk := tResponse.CheckError env (some rr)
        match chk.2 with
        | some err => some (s, (s.clients a).me, some err)
        | none =>
          let tgt := Client.meTarget s (s.clients a).me
          let s := tgt.1
          let r := tgt.2
          let dec := tResponse.DecodeTo env.UnmarshalRecordPtr chk.1
            (some (some (s.records r)))
          -- what the decoder did through `&r`: wrote the record, or cleared `r`
          let s := match dec.1 with
            | some (some v) => s.setRecord r v
            | _ => s
          let r : Option Addr := match dec.1 with
            | some none => none
            | _ => some r
          match dec.2 with
          | some err => some (s, (s.clients a).me, some err)
          | none => some (s.setClient a { s.clients a with me := r }, r, none)

/-! ## Construction -/

/-- Go `tClientParam`: the closures the `Param...` functions return. -/
inductive tClientParam where
  | token (token : String)
  | disableFirstMeCall
  | useHTTPS (is : Bool)
  | fields (fields : List String)
  | enableSecurity
deriving DecidableEq, Repr

/-- Go `ParamToken`: nil for a blank token. -/
def ParamToken (token : String) : Option tClientParam :=
  if TrimSpace token = "" then none else some (.token (TrimSpace token))

/-- Go `ParamDisableFirstMeCall`. -/
def ParamDisableFirstMeCall : tClientParam := .disableFirstMeCall

/-- Go `ParamUseHTTPS`. -/
def ParamUseHTTPS (is : Bool) : tClientParam := .useHTTPS is

/-- Go `ParamFields`. -/
def ParamFields (fields : List String) : tClientParam := .fields fields

/-- Go `ParamEnableSecurity`; its arguments are not used. -/
def ParamEnableSecurity (_fields : List String) : tClientParam := .enableSecurity

/-- Calling a `tClientParam` closure on the client `c`. -/
def tClientParam.call (f : tClientParam) (s : State) (c : Option Addr) : Option State :=
  match c with
  | none => some s
  | some a =>
    match f with
    | .token tok =>
      match (s.clients a).baseReq with
      | none => none
      | some r => some (s.setRequest r { s.requests r with token := tok })
    | .disableFirstMeCall =>
      some (s.setClient a { s.clients a with skipInitFetchMe := true })
    | .useHTTPS is =>
      let out := tRequest.UseHTTPS s (s.clients a).baseReq is
      some (out.1.setClient a { out.1.clients a with baseReq := out.2 })
    | .fields names =>
      let out := tRequest.Fields s (s.clients a).baseReq names
      some (out.1.setClient a { out.1.clients a with baseReq := out.2 })
    | .enableSecurity =>
      let out := tRequest.EnableSecuity s (s.clients a).baseReq true
      some (out.1.setClient a { out.1.clients a with baseReq := out.2 })

/-- One element of the `params ...interface{}` of `New`, by its dynamic
type. -/
inductive Param where
  | nil
  | string (v : String)
  | bytes (v : String)
  | httpClient (v : HttpClient)
  | httpClientPtr (v : Option HttpClient)
  | clientParam (v : Option tClientParam)
  | other
deriving DecidableEq, Repr

/-- Go `(*Client).applyParams`. -/
def Client.applyParams (c : Option Addr) : List Param → State → Option State
  | [], s => some s
  | .clientParam (some f) :: rest, s =>
    match f.call s c with
    | none => none
    | some s => Client.applyParams c rest s
  | _ :: rest, s => Client.applyParams c rest s

/-- The loop of `extractToken`: the last string or `[]byte` seen. -/
def extractTokenLoop : List Param → String → String
  | [], token => token
  | .string v :: rest, _ => extractTokenLoop rest v
  | .bytes v :: rest, _ => extractTokenLoop rest v
  | _ :: rest, token => extractTokenLoop rest token

/-- Go `extractToken`. -/
def extractToken (params : List Param) : String :=
  TrimSpace (extractTokenLoop params "")

/-- The loop of `extractHttpClient`. -/
def extractHttpClientLoop : List Param → Option HttpClient → Option HttpClient
  | [], client => client
  | .httpClient v :: rest, _ => extractHttpClientLoop rest (some v)
  | .httpClientPtr (some v) :: rest, _ => extractHttpClientLoop rest (some v)
  | _ :: rest, client => extractHttpClientLoop rest client

/-- Go `extractHttpClient`. -/
def extractHttpClient (params : List Param) : Option HttpClient :=
  extractHttpClientLoop params none

/-- The value `http.Client{}`. -/
def defaultHttpClient : HttpClient := 0

/-- The first statement of `New`: `&Client{baseReq: &tRequest{reqArgs: url.Values{}}}`. -/
def State.newClient (s : State) : State × Addr :=
  ({ s with
      values := Function.update s.values s.nextValues ⟨[]⟩,
      nextValues := s.nextValues + 1,
      requests := Function.update s.requests s.nextRequest
        { token := "", client := none, endpoint := "", reqArgs := s.nextValues,
          reqArgsBuilt := "", securityEnabled := false },
      nextRequest := s.nextRequest + 1,
      clients := Function.update s.clients s.nextClient
        { me := none, baseReq := some s.nextRequest, skipInitFetchMe := false },
      nextClient := s.nextClient + 1 }, s.nextClient)

/-- The part of `New` between the token check and the test request: the
transport handle, the endpoint and the request parameters of `c.baseReq`. -/
def New.defaults (s : State) (r : Addr) (params : List Param) : State :=
  let s := if (s.requests r).client = none then
      let s := s.setRequest r { s.requests r with client := extractHttpClient params }
      if (s.requests r).client = none then
        s.setRequest r { s.requests r with client := some defaultHttpClient }
      else s
    else s
  let s := if (s.requests r).endpoint = "" then
      s.setRequest r { s.requests r with endpoint := cApiEndpointHTTP }
    else s
  let m := (s.requests r).reqArgs
  let s := s.setValues m ((s.values m).Set "access_key" (s.requests r).token)
  let s := s.setValues m ((s.values m).Set "output" "json")
  s.setRequest r { s.requests r with reqArgsBuilt := "?" ++ (s.values m).Encode }

/-- Go `New`. -/
def New (env : Env) (s : State) (params : List Param) :
    Option (State × Option Addr × Option GoError) :=
  let c := s.newClient.2
  match Client.applyParams (some c) params s.newClient.1 with
  | none => none
  | some s =>
    match (s.clients c).baseReq with
    | none => none
    | some r =>
      let s := if (s.requests r).token = "" then
          s.setRequest r { s.requests r with token := extractToken params }
        else s
      if (s.requests r).token = "" then
        some (s, none, some (.errorf "Token argument (string or []byte) is required"))
      else
        let s := New.defaults s r params
        let test : Option (State × Option GoError) :=
          if (s.clients c).skipInitFetchMe = false then
            (Client.Me env s (some c) []).map fun out => (out.1, out.2.2)
          else some (s, none)
        match test with
        | none => none
        | some (s, some err) =>
          some (s, none, some (.errorf (Sprintf "Test request error (%s)" [err.Error])))
        | some (s, none) =>
          let s := if s.DefaultClient = none then { s with DefaultClient := some c } else s
          some (s, some c, none)

/-- Go `Init`: build a client with `New` and make it the default one; on
failure the error is returned and nothing is assigned. -/
def Init (env : Env) (s : State) (params : List Param) : Option (State × Option GoError) :=
  match New env s params with
  | none => none
  | some (s, _, some err) => some (s, some err)
  | some (s, cl, none) => some ({ s with DefaultClient := cl }, none)

/-- The value of the `fields` request parameter of the baseline template of
the client at `c`. -/
def Client.baseFields (s : State) (c : Addr) : String :=
  match (s.clients c).baseReq with
  | none => ""
  | some r => (s.values (s.requests r).reqArgs).Get "fields"

/-- The built query string of the baseline template of the client at `c`. -/
def Client.baseBuilt (s : State) (c : Addr) : String :=
  match (s.clients c).baseReq with
  | none => ""
  | some r => (s.requests r).reqArgsBuilt

/-! ## A concrete environment

Used to run the model on examples. -/

/-- The memory before anything is allocated. -/
def State.empty : State :=
  { requests := fun _ =>
      { token := "", client := none, endpoint := "", reqArgs := 0, reqArgsBuilt := "",
        securityEnabled := false },
    nextRequest := 0,
    values := fun _ => ⟨[]⟩,
    nextValues := 0,
    records := fun _ => Response.zero,
    nextRecord := 0,
    clients := fun _ => { me := none, baseReq := none, skipInitFetchMe := false },
    nextClient := 0,
    DefaultClient := none,
    calls := [] }

/-- Split a list of characters at every `.`. -/
def splitDots : List Char → List (List Char)
  | [] => [[]]
  | c :: rest =>
    if c = '.' then [] :: splitDots rest
    else
      match splitDots rest with
      | [] => [[c]]
      | p :: ps => (c :: p) :: ps

/-- Value of a string of decimal digits. -/
def decimalValue (cs : List Char) : Nat :=
  cs.foldl (fun n c => 10 * n + (c.toNat - 48)) 0

/-- One part of a dotted quad: one to three digits, at most 255. -/
def isOctet (cs : List Char) : Bool :=
  decide (1 ≤ cs.length) && decide (cs.length ≤ 3) &&
  cs.all (fun c => decide (48 ≤ c.toNat) && decide (c.toNat ≤ 57)) &&
  decide (decimalValue cs ≤ 255)

/-- A parser that accepts the dotted-quad IPv4 literals. -/
def dottedQuad (s : String) : Bool :=
  let parts := splitDots s.data
  decide (parts.length = 4) && parts.all isOctet

/-- A test environment.  The transport handle selects the outcome of a call:
handle 1 fails, 2 has no body, 3 fails while draining, 4 answers `bad`, 5
answers `fail`, 6 answers `null`, 7 echoes the target of the first call of
the log and fails afterwards, every other handle echoes the target.  The
decoders reject the body `bad`; stage 1 reads `fail` as a remote error 104;
a record or list decoded from a body holds the body as its `IP`. -/
def testEnv : Env :=
  { ParseIP := dottedQuad,
    Get := fun client calls url =>
      if client = 1 then .getErr "connection refused"
      else if client = 2 then .nilBody
      else if client = 3 then .readErr "unexpected EOF"
      else if client = 4 then .body "bad"
      else if client = 5 then .body "fail"
      else if client = 6 then .body "null"
      else if client = 7 then
        (if calls = [] then .body url else .getErr "connection refused")
      else .body url,
    UnmarshalError := fun raw v =>
      if raw = "bad" then (v, some "invalid character")
      else if raw = "fail" then
        ({ Success := false, Error := ⟨104, "x", "y"⟩ }, none)
      else (v, none),
    UnmarshalRecord := fun raw v =>
      if raw = "bad" then (v, some "invalid character")
      else ({ v with IP := raw }, none),
    UnmarshalRecordPtr := fun raw p =>
      if raw = "bad" then (p, some "invalid character")
      else if raw = "null" then (none, none)
      else (some { p.getD Response.zero with IP := raw }, none),
    UnmarshalList := fun raw l =>
      if raw = "bad" then (l, some "invalid character")
      else if raw = "null" then (none, none)
      else (some [some { Response.zero with IP := raw }], none) }

/-- The memory after `New("tok", ParamDisableFirstMeCall())` in the test
environment: client 0 with baseline template 0 and nothing cached. -/
def testState : State :=
  match New testEnv State.empty
      [.string "tok", .clientParam (some ParamDisableFirstMeCall)] with
  | some (s, _, _) => s
  | none => State.empty

/-- The memory after `New("tok")` in the test environment: client 0 with
baseline template 0 and the self-record 0 cached by the test request. -/
def testStateCached : State :=
  match New testEnv State.empty [.string "tok"] with
  | some (s, _, _) => s
  | none => State.empty

/-- A second test environment: the transport echoes the target of the first
call of the log and answers `partial` afterwards; the decoder of a record
pointer, given `partial`, writes the `IP` field and then reports a field of
the wrong type, as `encoding/json` does when it goes on after a type error. -/
def testEnvPartial : Env :=
  { testEnv with
    Get := fun _ calls url => if calls = [] then .body url else .body "partial",
    UnmarshalRecordPtr := fun raw p =>
      if raw = "partial" then
        (some { p.getD Response.zero with IP := "9.9.9.9" },
          some "json: cannot unmarshal string into Go struct field Response.latitude of type float32")
      else testEnv.UnmarshalRecordPtr raw p }

/-- The memory after `New("tok", http.Client{...}, ParamDisableFirstMeCall())`
in the test environment with the transport handle 5, which answers `fail`. -/
def testStateFail : State :=
  match New testEnv State.empty
      [.string "tok", .httpClient 5, .clientParam (some ParamDisableFirstMeCall)] with
  | some (s, _, _) => s
  | none => State.empty

/-- The memory after `New("tok", http.Client{...})` in the test environment
with the transport handle 7: the test request cached the self-record 0 and
every later call fails. -/
def testStateStale : State :=
  match New testEnv State.empty [.string "tok", .httpClient 7] with
  | some (s, _, _) => s
  | none => State.empty

/-- The body `{"success":true,"error":"x"}`: a JSON object that carries
`success=true` and whose `error` member is a string, not an object. -/
def bodyErrorMemberIsText : String :=
  "\x7b\"success\":true,\"error\":\"x\"\x7d"

/-- A third test environment: on the body `bodyErrorMemberIsText` the stage-1
decoder sets the success flag to `true` and reports the member of the wrong
type, as `encoding/json` does; on every other body it is the decoder of
`testEnv`. -/
def testEnvTypeError : Env :=
  { testEnv with
    UnmarshalError := fun raw v =>
      if raw = bodyErrorMemberIsText then
        ({ v with Success := true },
          some "json: cannot unmarshal string into Go struct field tResponseError.error of type ipstack.tError")
      else testEnv.UnmarshalError raw v }

/-! ## Notions used to state the properties -/

/-- The text of a parameter that is a string or a `[]byte`. -/
def Param.text : Param → Option String
  | .string v => some v
  | .bytes v => some v
  | _ => none

/-- The last element of a parameter list that is a string or a `[]byte`, by
its text. -/
def lastTextParam (params : List Param) : Option String :=
  (params.filterMap Param.text).getLast?

/-- A parameter map that is empty or holds only the `fields` parameter: the
map of a new client while the parameter closures run. -/
def Values.onlyFields (v : Values) : Prop :=
  v.entries = [] ∨ ∃ x, v.entries = [("fields", [x])]

/-- A parameter map that holds `access_key` with the value `t`, `output` with
the value `json`, and `fields` with the value `x` when `f` is `some x`, and
nothing else. -/
def Values.hasParams (v : Values) (t : String) (f : Option String) : Prop :=
  match f with
  | none => v.entries = [("access_key", [t]), ("output", ["json"])]
  | some x =>
    v.entries = [("fields", [x]), ("access_key", [t]), ("output", ["json"])] ∨
    v.entries = [("access_key", [t]), ("output", ["json"]), ("fields", [x])]

/-- The query string of the token `t` and the selector string `f`: `?`, the
escaped `access_key`, the escaped `fields` when there is one, `output=json`. -/
def builtQuery (t : String) (f : Option String) : String :=
  match f with
  | none => "?access_key=" ++ QueryEscape t ++ "&output=json"
  | some x => "?access_key=" ++ QueryEscape t ++ "&fields=" ++ QueryEscape x ++ "&output=json"

/-- The templates derived from the client `c`: `Derived c s l` says that the
memory `s` is reached from a successful `New` that built `c` by calls of `R`
on `c` and of the configurators on templates obtained so far, and that `l`
lists those templates, the baseline one of `c` last. -/
inductive Derived (c : Addr) : State → List Addr → Prop where
  | built (env : Env) (s0 s : State) (params : List Param) (r : Addr) :
      New env s0 params = some (s, some c, none) → (s.clients c).baseReq = some r →
      Derived c s [r]
  | clone (s s1 : State) (l : List Addr) (t : Addr) :
      Derived c s l → Client.R s (some c) = some (s1, some t) → Derived c s1 (t :: l)
  | useHTTPS (s : State) (l : List Addr) (a : Addr) (is : Bool) :
      Derived c s l → a ∈ l → Derived c (tRequest.UseHTTPS s (some a) is).1 l
  | enableSecuity (s : State) (l : List Addr) (a : Addr) (is : Bool) :
      Derived c s l → a ∈ l → Derived c (tRequest.EnableSecuity s (some a) is).1 l
  | fields (s : State) (l : List Addr) (a : Addr) (names : List String) :
      Derived c s l → a ∈ l → Derived c (tRequest.Fields s (some a) names).1 l

/-- The token fallback of `New`: when the closures left the token of the
baseline template `r` empty, it is the one `extractToken` finds. -/
def New.withToken (s : State) (r : Addr) (params : List Param) : State :=
  if (s.requests r).token = "" then
    s.setRequest r { s.requests r with token := extractToken params }
  else s

/-- The memory after `New("t k", ParamFields("ip"), ParamDisableFirstMeCall())`
in the test environment. -/
def testStateFields : State :=
  match New testEnv State.empty
      [.string "t k", .clientParam (some (ParamFields ["ip"])),
        .clientParam (some ParamDisableFirstMeCall)] with
  | some (s, _, _) => s
  | none => State.empty

/-- The memory `testStateFields` after `R()` and, on the clone, `Fields("city")`
and `EnableSecuity(true)`. -/
def testStateDerived : State :=
  (tRequest.EnableSecuity
    (tRequest.Fields (tRequest.copy testStateFields (some 0)).1 (some 1) ["city"]).1
    (some 1) true).1

/-! ## Cloning and the baseline -/

/-- Claim C1, evaluated on the code: for the client built by
`New("tok", ParamDisableFirstMeCall())`, calling `Fields("a")` on the clone
returned by `R()` changes the `fields` request parameter of the baseline
template from `""` to `"a"`; the built query string of the baseline stays as
it was. -/
theorem C1_fields_on_clone_reach_baseline :
    ∃ s c s1 r s2,
      New testEnv State.empty
        [.string "tok", .clientParam (some ParamDisableFirstMeCall)] = some (s, some c, none) ∧
      Client.R s (some c) = some (s1, some r) ∧
      tRequest.Fields s1 (some r) ["a"] = (s2, some r) ∧
      Client.baseFields s c = "" ∧
      Client.baseFields s2 c = "a" ∧
      Client.baseBuilt s c = "?access_key=tok&output=json" ∧
      Client.baseBuilt s2 c = "?access_key=tok&output=json" := by
  refine ⟨_, 0, _, 1, _, rfl, rfl, rfl, ?_, ?_, ?_, ?_⟩ <;> decide

/-! ## Stage 1 followed by stage 2 -/

/-- Claim C2 fails as stated: on a body the stage-1 decoder rejects,
`CheckError` returns the wrapped error `Decode JSON error (...)`, and the
following `DecodeTo` returns the decoder's own error, a different one. -/
theorem C2_counterexample :
    (tResponse.CheckError testEnv (some ⟨some "bad", none⟩)).2 =
      some (.errorf "Decode JSON error (invalid character)") ∧
    (tResponse.DecodeTo testEnv.UnmarshalRecord
      (tResponse.CheckError testEnv (some ⟨some "bad", none⟩)).1 (some Response.zero)).2 =
      some (.lib "invalid character") ∧
    GoError.errorf "Decode JSON error (invalid character)" ≠ .lib "invalid character" := by
  decide

/-- Claim C2, amended: when `CheckError` returns an error `x`, the following
`DecodeTo` leaves the destination as it was and returns an error `y`.  `y` is
`x` itself when `x` was already in the envelope and when stage 1 decoded a
remote error; when the stage-1 decoder failed with `m`, `x` is the wrapped
`Decode JSON error (m)` and `y` is the decoder's error `m`. -/
theorem C2_decode_after_failed_check {α : Type} (env : Env)
    (unmarshal : String → α → α × Option String) (r : tResponse) (i : Option α)
    (x : GoError) (h : (tResponse.CheckError env (some r)).2 = some x) :
    ∃ y, tResponse.DecodeTo unmarshal (tResponse.CheckError env (some r)).1 i = (i, some y) ∧
      (r.Error ≠ none → y = x) ∧
      (r.Error = none →
        (env.UnmarshalError (r.RawData.getD "") ⟨true, ⟨0, "", ""⟩⟩).2 = none → y = x) ∧
      (∀ m, r.Error = none →
        (env.UnmarshalError (r.RawData.getD "") ⟨true, ⟨0, "", ""⟩⟩).2 = some m →
        y = .lib m ∧ x = .errorf (Sprintf "Decode JSON error (%s)" [m])) := by
  cases hE : r.Error with
  | some e =>
    have hx : e = x := by simpa [tResponse.CheckError, hE] using h
    subst hx
    refine ⟨e, ?_, ?_, ?_, ?_⟩ <;> simp [tResponse.CheckError, tResponse.DecodeTo, hE]
  | none =>
    cases hU : (env.UnmarshalError (r.RawData.getD "") ⟨true, ⟨0, "", ""⟩⟩).2 with
    | some m =>
      have hx : x = .errorf (Sprintf "Decode JSON error (%s)" [m]) := by
        simpa [tResponse.CheckError, hE, hU, GoError.Error, eq_comm] using h
      refine ⟨.lib m, ?_, ?_, ?_, ?_⟩ <;>
        simp [tResponse.CheckError, tResponse.DecodeTo, hE, hU, hx]
    | none =>
      by_cases hS : (env.UnmarshalError (r.RawData.getD "") ⟨true, ⟨0, "", ""⟩⟩).1.Success = false
      · have hx : x = .api (env.UnmarshalError (r.RawData.getD "") ⟨true, ⟨0, "", ""⟩⟩).1.Error := by
          simpa [tResponse.CheckError, hE, hU, hS, eq_comm] using h
        refine ⟨x, ?_, ?_, ?_, ?_⟩ <;>
          simp [tResponse.CheckError, tResponse.DecodeTo, hE, hU, hS, hx]
      · simp [tResponse.CheckError, hE, hU, hS] at h

/-- Claim C2, amended, at a body that carries a remote error. -/
theorem C2_decode_after_failed_check_witness :
    (tResponse.CheckError testEnv (some ⟨some "fail", none⟩)).2 =
      some (.api ⟨104, "x", "y"⟩) ∧
    ∃ y, tResponse.DecodeTo testEnv.UnmarshalRecord
        (tResponse.CheckError testEnv (some ⟨some "fail", none⟩)).1 (some Response.zero) =
          (some Response.zero, some y) ∧
      ((⟨some "fail", none⟩ : tResponse).Error ≠ none → y = .api ⟨104, "x", "y"⟩) ∧
      ((⟨some "fail", none⟩ : tResponse).Error = none →
        (testEnv.UnmarshalError ((⟨some "fail", none⟩ : tResponse).RawData.getD "")
          ⟨true, ⟨0, "", ""⟩⟩).2 = none → y = .api ⟨104, "x", "y"⟩) ∧
      (∀ m, (⟨some "fail", none⟩ : tResponse).Error = none →
        (testEnv.UnmarshalError ((⟨some "fail", none⟩ : tResponse).RawData.getD "")
          ⟨true, ⟨0, "", ""⟩⟩).2 = some m →
        y = .lib m ∧ GoError.api ⟨104, "x", "y"⟩ =
          .errorf (Sprintf "Decode JSON error (%s)" [m])) :=
  ⟨by decide, C2_decode_after_failed_check testEnv testEnv.UnmarshalRecord
    ⟨some "fail", none⟩ (some Response.zero) (.api ⟨104, "x", "y"⟩) (by decide)⟩

/-! ## Lookups: frame and totality lemmas -/

theorem tRequest.validate_eq_none {s : State} {r : Option Addr}
    (h : tRequest.validate s r = none) :
    ∃ a cl, r = some a ∧ (s.requests a).client = some cl := by
  cases r with
  | none => simp [tRequest.validate] at h
  | some a =>
    cases hc : (s.requests a).client with
    | none => simp [tRequest.validate, hc] at h
    | some cl => exact ⟨a, cl, rfl, hc⟩

theorem tRequest.validate_of_client {s : State} {a : Addr} {cl : HttpClient}
    (h : (s.requests a).client = some cl) : tRequest.validate s (some a) = none := by
  simp [tRequest.validate, h]

theorem tRequest.do_of_client (env : Env) {s : State} {a : Addr} {cl : HttpClient}
    (h : (s.requests a).client = some cl) (method : String) :
    tRequest.do_ env s (some a) method =
      some ({ s with calls := s.calls ++ [(s.requests a).target method] },
        (env.Get cl s.calls ((s.requests a).target method)).envelope) := by
  simp [tRequest.do_, h]

theorem State.calls_append_nil (s : State) : { s with calls := s.calls ++ [] } = s := by
  cases s; simp

/-- Every lookup of a template returns, and touches nothing but the log of
calls. -/
theorem tRequest.IP_frame (env : Env) (s : State) (r : Option Addr) (ip : String) :
    ∃ l rr, tRequest.IP env s r ip = some ({ s with calls := s.calls ++ l }, rr) := by
  unfold tRequest.IP
  cases hv : tRequest.validate s r with
  | some e => exact ⟨[], resp none (some e), by simp [State.calls_append_nil]⟩
  | none =>
    obtain ⟨a, cl, rfl, hc⟩ := tRequest.validate_eq_none hv
    by_cases h1 : TrimSpace ip = ""
    · exact ⟨[], resps none "Empty IP" [], by simp [h1, State.calls_append_nil]⟩
    · by_cases h2 : env.ParseIP (TrimSpace ip) = false
      · exact ⟨[], resps none "Invalid IP (%s)" [TrimSpace ip],
          by simp [h1, h2, State.calls_append_nil]⟩
      · exact ⟨[(s.requests a).target (TrimSpace ip)],
          (env.Get cl s.calls ((s.requests a).target (TrimSpace ip))).envelope,
          by simp [h1, h2, tRequest.do_of_client env hc]⟩

theorem tRequest.IPs_frame (env : Env) (s : State) (r : Option Addr) (ips : List String) :
    ∃ l rr, tRequest.IPs env s r ips = some ({ s with calls := s.calls ++ l }, rr) := by
  unfold tRequest.IPs
  cases hv : tRequest.validate s r with
  | some e => exact ⟨[], resp none (some e), by simp [State.calls_append_nil]⟩
  | none =>
    obtain ⟨a, cl, rfl, hc⟩ := tRequest.validate_eq_none hv
    by_cases h1 : ips.length = 0
    · exact ⟨[], resps none "No IP passed" [], by simp [h1, State.calls_append_nil]⟩
    · by_cases h2 : (validIps env ips).length = 0
      · exact ⟨[], resps none "No valid IP passed" [],
          by simp [h1, h2, State.calls_append_nil]⟩
      · exact ⟨[(s.requests a).target (Join (validIps env ips) ",")],
          (env.Get cl s.calls ((s.requests a).target (Join (validIps env ips) ","))).envelope,
          by simp [h1, h2, tRequest.do_of_client env hc]⟩

theorem tRequest.Me_frame (env : Env) (s : State) (r : Option Addr) :
    ∃ l rr, tRequest.Me env s r = some ({ s with calls := s.calls ++ l }, rr) := by
  unfold tRequest.Me
  cases hv : tRequest.validate s r with
  | some e => exact ⟨[], resp none (some e), by simp [State.calls_append_nil]⟩
  | none =>
    obtain ⟨a, cl, rfl, hc⟩ := tRequest.validate_eq_none hv
    exact ⟨[(s.requests a).target "check"],
      (env.Get cl s.calls ((s.requests a).target "check")).envelope,
      by simp [tRequest.do_of_client env hc]⟩

theorem tResponse.DecodeTo_fst_some {α : Type} (unmarshal : String → α → α × Option String)
    (r : Option tResponse) (d : α) :
    ∃ d1, (tResponse.DecodeTo unmarshal r (some d)).1 = some d1 := by
  unfold tResponse.DecodeTo
  cases r with
  | none => exact ⟨d, rfl⟩
  | some r =>
    cases hE : r.Error with
    | some e => exact ⟨d, by simp [hE]⟩
    | none => exact ⟨(unmarshal (r.RawData.getD "") d).1, by simp [hE]⟩

theorem Client.meTarget_clients (s : State) (me : Option Addr) :
    (Client.meTarget s me).1.clients = s.clients := by
  cases me <;> rfl

theorem Client.meTarget_calls (s : State) (me : Option Addr) :
    (Client.meTarget s me).1.calls = s.calls := by
  cases me <;> rfl

theorem Client.validate_of_baseReq {s : State} {a r : Addr}
    (h : (s.clients a).baseReq = some r) : Client.validate s (some a) = none := by
  simp [Client.validate, h]

theorem Client.validate_of_no_baseReq {s : State} {a : Addr}
    (h : (s.clients a).baseReq = none) :
    Client.validate s (some a) = some (.errorf "Incorrect internal state") := by
  simp [Client.validate, h]

/-! ## Configurators -/

/-- Claim C4 fails as stated: `UseHTTPS(true)` on the baseline template of a
new client returns that same template, whose endpoint has changed from the
http to the https one. -/
theorem C4_counterexample :
    ∃ s c r s1,
      New testEnv State.empty
        [.string "tok", .clientParam (some ParamDisableFirstMeCall)] = some (s, some c, none) ∧
      (s.clients c).baseReq = some r ∧
      tRequest.UseHTTPS s (some r) true = (s1, some r) ∧
      (s.requests r).endpoint = "http://api.ipstack.com/" ∧
      (s1.requests r).endpoint = "https://api.ipstack.com/" := by
  refine ⟨_, 0, 0, _, rfl, rfl, rfl, ?_, ?_⟩ <;> decide

/-- Claim C4, amended: each configurator returns its receiver, updated in
place.  `UseHTTPS(is)` sets the endpoint of the receiver and `EnableSecuity(is)`
sets its security flag when `is` is true; the other fields of the receiver,
every other template and everything else in memory stay as they were.
`Fields` with at least one name writes the merged selector into the
parameter map the receiver refers to and sets the built query string of the
receiver to `?` plus the encoding of that map; the other fields of the
receiver, the struct of every other template, every other parameter map and
everything else in memory stay as they were. -/
theorem C4_configurators_update_receiver (s : State) (a : Addr) :
    (∀ is,
      (tRequest.UseHTTPS s (some a) is).2 = some a ∧
      (tRequest.UseHTTPS s (some a) is).1.requests a =
        { s.requests a with
          endpoint := if is = true then cApiEndpointHTTPS else cApiEndpointHTTP } ∧
      (∀ b, b ≠ a → (tRequest.UseHTTPS s (some a) is).1.requests b = s.requests b) ∧
      { (tRequest.UseHTTPS s (some a) is).1 with requests := s.requests } = s) ∧
    (∀ is,
      (tRequest.EnableSecuity s (some a) is).2 = some a ∧
      (tRequest.EnableSecuity s (some a) is).1.requests a =
        { s.requests a with securityEnabled := (s.requests a).securityEnabled || is } ∧
      (∀ b, b ≠ a → (tRequest.EnableSecuity s (some a) is).1.requests b = s.requests b) ∧
      { (tRequest.EnableSecuity s (some a) is).1 with requests := s.requests } = s) ∧
    (∀ names, names ≠ [] →
      (tRequest.Fields s (some a) names).2 = some a ∧
      (tRequest.Fields s (some a) names).1.requests a =
        { s.requests a with
          reqArgsBuilt := "?" ++
            ((tRequest.Fields s (some a) names).1.values (s.requests a).reqArgs).Encode } ∧
      (∀ b, b ≠ a → (tRequest.Fields s (some a) names).1.requests b = s.requests b) ∧
      (tRequest.Fields s (some a) names).1.values (s.requests a).reqArgs =
        (s.values (s.requests a).reqArgs).Set "fields"
          (Join (names ++
            (if (s.values (s.requests a).reqArgs).Get "fields" = "" then []
             else [(s.values (s.requests a).reqArgs).Get "fields"])) ",") ∧
      (∀ m, m ≠ (s.requests a).reqArgs →
        (tRequest.Fields s (some a) names).1.values m = s.values m) ∧
      { (tRequest.Fields s (some a) names).1 with
        requests := s.requests, values := s.values } = s) := by
  refine ⟨?_, ?_, ?_⟩
  · intro is
    cases is <;> simp [tRequest.UseHTTPS, State.setRequest] <;>
      intro b hb <;> simp [Function.update, hb]
  · intro is
    cases is
    · simp [tRequest.EnableSecuity]
    · simp [tRequest.EnableSecuity, State.setRequest]
      intro b hb
      simp [Function.update, hb]
  · intro names hn
    have hl : names.length ≠ 0 := by
      cases names with
      | nil => exact absurd rfl hn
      | cons x xs => simp
    by_cases hp : (s.values (s.requests a).reqArgs).Get "fields" = ""
    · simp [tRequest.Fields, hl, State.setRequest, State.setValues, hp]
      refine ⟨fun b hb => ?_, fun m hm => ?_⟩
      · simp [Function.update, hb]
      · simp [Function.update, hm]
    · simp [tRequest.Fields, hl, State.setRequest, State.setValues, hp]
      refine ⟨fun b hb => ?_, fun m hm => ?_⟩
      · simp [Function.update, hb]
      · simp [Function.update, hm]

/-- Claim C4, amended, at `Fields("ip")` on the baseline template of a new
client. -/
theorem C4_configurators_update_receiver_witness :
    (["ip"] : List String) ≠ [] ∧
    (tRequest.Fields testState (some 0) ["ip"]).2 = some 0 ∧
    (tRequest.Fields testState (some 0) ["ip"]).1.requests 0 =
      { testState.requests 0 with
        reqArgsBuilt := "?access_key=tok&fields=ip&output=json" } ∧
    (∀ b, b ≠ 0 →
      (tRequest.Fields testState (some 0) ["ip"]).1.requests b = testState.requests b) ∧
    (tRequest.Fields testState (some 0) ["ip"]).1.values (testState.requests 0).reqArgs =
      (testState.values (testState.requests 0).reqArgs).Set "fields" "ip" ∧
    (∀ m, m ≠ (testState.requests 0).reqArgs →
      (tRequest.Fields testState (some 0) ["ip"]).1.values m = testState.values m) ∧
    { (tRequest.Fields testState (some 0) ["ip"]).1 with
      requests := testState.requests, values := testState.values } = testState :=
  ⟨by decide, (C4_configurators_update_receiver testState 0).2.2 ["ip"] (by decide)⟩

/-! ## Field selectors -/

theorem lookup_setEntry (l : List (String × List String)) (key value : String) :
    (setEntry l key value).lookup key = some [value] := by
  induction l with
  | nil => simp [setEntry, List.lookup_cons]
  | cons e rest ih =>
    obtain ⟨k, vs⟩ := e
    by_cases h : k = key
    · simp [setEntry, h, List.lookup_cons]
    · have h1 : (key == k) = false := by
        rw [beq_eq_false_iff_ne]
        exact fun e => h e.symm
      rw [setEntry, if_neg h, List.lookup_cons, h1]
      exact ih

/-- Reading a parameter back after `Set`. -/
theorem Values.Get_Set (v : Values) (key value : String) :
    (v.Set key value).Get key = value := by
  simp [Values.Get, Values.Set, lookup_setEntry]

/-- Claim C5: `Fields` with at least one name sets the `fields` parameter to
the comma-join of the names followed by the earlier value (left out when
empty) and rebuilds the query string as `?` plus the encoding of the
parameter map; from an empty selector, `Fields("a")` then `Fields("b")`
gives the selector string `b,a`. -/
theorem C5_fields_merge (s : State) (a : Addr) :
    (∀ names, names ≠ [] →
      ((tRequest.Fields s (some a) names).1.values (s.requests a).reqArgs).Get "fields" =
        Join (names ++
          (if (s.values (s.requests a).reqArgs).Get "fields" = "" then []
           else [(s.values (s.requests a).reqArgs).Get "fields"])) "," ∧
      ((tRequest.Fields s (some a) names).1.requests a).reqArgs = (s.requests a).reqArgs ∧
      ((tRequest.Fields s (some a) names).1.requests a).reqArgsBuilt =
        "?" ++ ((tRequest.Fields s (some a) names).1.values (s.requests a).reqArgs).Encode) ∧
    ((s.values (s.requests a).reqArgs).Get "fields" = "" →
      ((tRequest.Fields (tRequest.Fields s (some a) ["a"]).1 (some a) ["b"]).1.values
        (s.requests a).reqArgs).Get "fields" = "b,a") := by
  have key : ∀ (s : State) (names : List String), names ≠ [] →
      ((tRequest.Fields s (some a) names).1.values (s.requests a).reqArgs).Get "fields" =
        Join (names ++
          (if (s.values (s.requests a).reqArgs).Get "fields" = "" then []
           else [(s.values (s.requests a).reqArgs).Get "fields"])) "," ∧
      ((tRequest.Fields s (some a) names).1.requests a).reqArgs = (s.requests a).reqArgs ∧
      ((tRequest.Fields s (some a) names).1.requests a).reqArgsBuilt =
        "?" ++ ((tRequest.Fields s (some a) names).1.values (s.requests a).reqArgs).Encode := by
    intro s names hn
    have hl : names.length ≠ 0 := by
      cases names with
      | nil => exact absurd rfl hn
      | cons x xs => simp
    by_cases hp : (s.values (s.requests a).reqArgs).Get "fields" = ""
    · simp [tRequest.Fields, hl, State.setRequest, State.setValues, hp, Values.Get_Set]
    · simp [tRequest.Fields, hl, State.setRequest, State.setValues, hp, Values.Get_Set]
  refine ⟨key s, ?_⟩
  intro hp
  obtain ⟨h1, h2, -⟩ := key s ["a"] (by simp)
  obtain ⟨h3, -, -⟩ := key (tRequest.Fields s (some a) ["a"]).1 ["b"] (by simp)
  rw [h2] at h3
  rw [h3, h1, hp]
  decide

/-- Claim C5 on the baseline template of a new client: two names at once,
then `a` followed by `b`. -/
theorem C5_fields_merge_witness :
    ((["ip", "city"] : List String) ≠ [] ∧
      ((tRequest.Fields testState (some 0) ["ip", "city"]).1.values
        (testState.requests 0).reqArgs).Get "fields" = "ip,city" ∧
      ((tRequest.Fields testState (some 0) ["ip", "city"]).1.requests 0).reqArgs =
        (testState.requests 0).reqArgs ∧
      ((tRequest.Fields testState (some 0) ["ip", "city"]).1.requests 0).reqArgsBuilt =
        "?access_key=tok&fields=ip%2Ccity&output=json") ∧
    ((testState.values (testState.requests 0).reqArgs).Get "fields" = "" ∧
      ((tRequest.Fields (tRequest.Fields testState (some 0) ["a"]).1 (some 0) ["b"]).1.values
        (testState.requests 0).reqArgs).Get "fields" = "b,a") :=
  ⟨⟨by decide, (C5_fields_merge testState 0).1 ["ip", "city"] (by decide)⟩,
    ⟨by decide, (C5_fields_merge testState 0).2 (by decide)⟩⟩

/-! ## Single and batch lookups -/

/-- The target of a call: endpoint, path segment, built query string and,
when the security flag is set, the fixed suffix. -/
theorem tRequest.target_eq (t : tRequest) (method : String) :
    t.target method =
      t.endpoint ++ method ++ t.reqArgsBuilt ++
        (if t.securityEnabled = true then "&security=1" else "") := by
  cases h : t.securityEnabled
  · simp [tRequest.target, h]
  · simp only [tRequest.target, h, if_true, securityParam, String.append_assoc]
    rfl

/-- The loop of `IPs` keeps, in order, the trimmed entries that are not
empty and parse. -/
theorem validIps_eq_filter (env : Env) (ips : List String) :
    validIps env ips =
      (ips.map TrimSpace).filter (fun x => decide (x ≠ "") && env.ParseIP x) := by
  induction ips with
  | nil => rfl
  | cons ip rest ih =>
    by_cases h1 : TrimSpace ip = ""
    · simp [validIps, h1, ih]
    · by_cases h2 : env.ParseIP (TrimSpace ip) = false
      · simp [validIps, h1, h2, ih]
      · simp [validIps, h1, h2, ih]

theorem tResponse.CheckError_of_error (env : Env) (raw : Option String) (e : GoError) :
    (tResponse.CheckError env (some ⟨raw, some e⟩)).2 = some e := by
  simp [tResponse.CheckError]

/-- Claim C6: on a valid template and a list with at least one entry whose
trimmed form is a valid literal, `IPs` issues exactly one call; its target is
the endpoint, the comma-join of the trimmed valid entries in input order, the
built query string and the security suffix when the flag is set. -/
theorem C6_batch_issues_one_call (env : Env) (s : State) (a : Addr) (cl : HttpClient)
    (ips : List String) (hc : (s.requests a).client = some cl)
    (hv : ∃ ip ∈ ips, TrimSpace ip ≠ "" ∧ env.ParseIP (TrimSpace ip) = true) :
    ∃ rr, tRequest.IPs env s (some a) ips =
      some ({ s with calls := s.calls ++
        [(s.requests a).endpoint ++
          Join ((ips.map TrimSpace).filter (fun x => decide (x ≠ "") && env.ParseIP x)) "," ++
          (s.requests a).reqArgsBuilt ++
          (if (s.requests a).securityEnabled = true then "&security=1" else "")] }, rr) := by
  obtain ⟨ip, hmem, hne, hp⟩ := hv
  have hin : TrimSpace ip ∈ validIps env ips := by
    rw [validIps_eq_filter]
    simp only [List.mem_filter, List.mem_map]
    exact ⟨⟨ip, hmem, rfl⟩, by simp [hne, hp]⟩
  have h1 : ips.length ≠ 0 := by
    cases ips with
    | nil => simp at hmem
    | cons x xs => simp
  have h2 : (validIps env ips).length ≠ 0 := by
    intro h0
    rw [List.length_eq_zero] at h0
    rw [h0] at hin
    simp at hin
  refine ⟨(env.Get cl s.calls ((s.requests a).target (Join (validIps env ips) ","))).envelope, ?_⟩
  rw [← tRequest.target_eq, ← validIps_eq_filter]
  simp [tRequest.IPs, tRequest.validate_of_client hc, h1, h2, tRequest.do_of_client env hc]

/-- Claim C6 on a list that mixes valid, blank and invalid entries. -/
theorem C6_batch_issues_one_call_witness :
    (testState.requests 0).client = some 0 ∧
    (∃ ip ∈ [" 1.2.3.4 ", "", "x", "8.8.8.8"],
      TrimSpace ip ≠ "" ∧ testEnv.ParseIP (TrimSpace ip) = true) ∧
    ∃ rr, tRequest.IPs testEnv testState (some 0) [" 1.2.3.4 ", "", "x", "8.8.8.8"] =
      some ({ testState with calls := testState.calls ++
        ["http://api.ipstack.com/1.2.3.4,8.8.8.8?access_key=tok&output=json"] }, rr) :=
  ⟨by decide, ⟨"8.8.8.8", by decide, by decide, by decide⟩,
    C6_batch_issues_one_call testEnv testState 0 0 [" 1.2.3.4 ", "", "x", "8.8.8.8"]
      (by decide) ⟨"8.8.8.8", by decide, by decide, by decide⟩⟩

/-- Claim C7: for an input whose trimmed form is empty or does not parse,
`tRequest.IP` on any template returns an envelope with an error and nil data
and leaves the memory and the log of calls as they were; `Client.IP` then
returns a nil record with an error. -/
theorem C7_invalid_ip_short_circuits (env : Env) (s : State) (r c : Option Addr)
    (ip : String) (h : TrimSpace ip = "" ∨ env.ParseIP (TrimSpace ip) = false) :
    (∃ e, tRequest.IP env s r ip = some (s, { RawData := none, Error := some e })) ∧
    (∃ e, Client.IP env s c ip = some (s, none, some e)) := by
  have key : ∀ r, ∃ e, tRequest.IP env s r ip =
      some (s, { RawData := none, Error := some e }) := by
    intro r
    unfold tRequest.IP
    cases hv : tRequest.validate s r with
    | some e => exact ⟨e, rfl⟩
    | none =>
      by_cases h1 : TrimSpace ip = ""
      · exact ⟨.errorf (Sprintf "Empty IP" []), by simp [h1, resps]⟩
      · have h2 : env.ParseIP (TrimSpace ip) = false := h.resolve_left h1
        exact ⟨.errorf (Sprintf "Invalid IP (%s)" [TrimSpace ip]), by simp [h1, h2, resps]⟩
  refine ⟨key r, ?_⟩
  cases c with
  | none => exact ⟨_, rfl⟩
  | some a =>
    cases hb : (s.clients a).baseReq with
    | none =>
      simp only [Client.IP, Client.validate_of_no_baseReq hb]
      exact ⟨_, rfl⟩
    | some t =>
      obtain ⟨e, he⟩ := key (some t)
      simp only [Client.IP, Client.validate_of_baseReq hb, hb, he,
        tResponse.CheckError_of_error]
      exact ⟨_, rfl⟩

/-- Claim C7 at the input `not-an-ip`. -/
theorem C7_invalid_ip_short_circuits_witness :
    (TrimSpace "not-an-ip" = "" ∨ testEnv.ParseIP (TrimSpace "not-an-ip") = false) ∧
    (∃ e, tRequest.IP testEnv testState (some 0) "not-an-ip" =
      some (testState, { RawData := none, Error := some e })) ∧
    (∃ e, Client.IP testEnv testState (some 0) "not-an-ip" = some (testState, none, some e)) :=
  ⟨by decide, C7_invalid_ip_short_circuits testEnv testState (some 0) (some 0) "not-an-ip"
    (by decide)⟩

/-- Claim C8: on a valid template and an input whose trimmed form is a valid
literal, `tRequest.IP` issues exactly one call, to the endpoint followed by
the trimmed literal, the built query string and, exactly when the security
flag is set, `&security=1`. -/
theorem C8_single_issues_one_call (env : Env) (s : State) (a : Addr) (cl : HttpClient)
    (ip : String) (hc : (s.requests a).client = some cl)
    (h1 : TrimSpace ip ≠ "") (h2 : env.ParseIP (TrimSpace ip) = true) :
    ∃ rr, tRequest.IP env s (some a) ip =
      some ({ s with calls := s.calls ++
        [(s.requests a).endpoint ++ TrimSpace ip ++ (s.requests a).reqArgsBuilt ++
          (if (s.requests a).securityEnabled = true then "&security=1" else "")] }, rr) := by
  refine ⟨(env.Get cl s.calls ((s.requests a).target (TrimSpace ip))).envelope, ?_⟩
  rw [← tRequest.target_eq]
  simp [tRequest.IP, tRequest.validate_of_client hc, h1, h2, tRequest.do_of_client env hc]

/-- Claim C8 at a padded literal, on a template with the security flag set. -/
theorem C8_single_issues_one_call_witness :
    ((tRequest.EnableSecuity testState (some 0) true).1.requests 0).client = some 0 ∧
    TrimSpace " 1.2.3.4\n" ≠ "" ∧ testEnv.ParseIP (TrimSpace " 1.2.3.4\n") = true ∧
    ∃ rr, tRequest.IP testEnv (tRequest.EnableSecuity testState (some 0) true).1 (some 0)
        " 1.2.3.4\n" =
      some ({ (tRequest.EnableSecuity testState (some 0) true).1 with
        calls := (tRequest.EnableSecuity testState (some 0) true).1.calls ++
          ["http://api.ipstack.com/1.2.3.4?access_key=tok&output=json&security=1"] }, rr) :=
  ⟨by decide, by decide, by decide,
    C8_single_issues_one_call testEnv (tRequest.EnableSecuity testState (some 0) true).1 0 0
      " 1.2.3.4\n" (by decide) (by decide) (by decide)⟩

/-- Claim C9: for a list in which no entry has a trimmed form that is a
valid literal, the empty list included, `tRequest.IPs` on any template
returns an envelope with an error and nil data and leaves the memory and the
log of calls as they were; `Client.IPs` then returns a nil list with an
error. -/
theorem C9_no_valid_ip_short_circuits (env : Env) (s : State) (r c : Option Addr)
    (ips : List String)
    (h : ∀ ip ∈ ips, TrimSpace ip = "" ∨ env.ParseIP (TrimSpace ip) = false) :
    (∃ e, tRequest.IPs env s r ips = some (s, { RawData := none, Error := some e })) ∧
    (∃ e, Client.IPs env s c ips = some (s, none, some e)) := by
  have hnil : validIps env ips = [] := by
    rw [validIps_eq_filter, List.filter_eq_nil_iff]
    intro x hx
    obtain ⟨ip, hmem, rfl⟩ := List.mem_map.mp hx
    rcases h ip hmem with h1 | h2
    · simp [h1]
    · simp [h2]
  have key : ∀ r, ∃ e, tRequest.IPs env s r ips =
      some (s, { RawData := none, Error := some e }) := by
    intro r
    unfold tRequest.IPs
    cases hv : tRequest.validate s r with
    | some e => exact ⟨e, rfl⟩
    | none =>
      by_cases h1 : ips.length = 0
      · exact ⟨.errorf (Sprintf "No IP passed" []), by simp [h1, resps]⟩
      · exact ⟨.errorf (Sprintf "No valid IP passed" []), by simp [h1, hnil, resps]⟩
  refine ⟨key r, ?_⟩
  cases c with
  | none => exact ⟨_, rfl⟩
  | some a =>
    cases hb : (s.clients a).baseReq with
    | none =>
      simp only [Client.IPs, Client.validate_of_no_baseReq hb]
      exact ⟨_, rfl⟩
    | some t =>
      obtain ⟨e, he⟩ := key (some t)
      simp only [Client.IPs, Client.validate_of_baseReq hb, hb, he,
        tResponse.CheckError_of_error]
      exact ⟨_, rfl⟩

/-- Claim C9 at the list of the empty string and `not-an-ip`. -/
theorem C9_no_valid_ip_short_circuits_witness :
    (∀ ip ∈ ["", "not-an-ip"],
      TrimSpace ip = "" ∨ testEnv.ParseIP (TrimSpace ip) = false) ∧
    (∃ e, tRequest.IPs testEnv testState (some 0) ["", "not-an-ip"] =
      some (testState, { RawData := none, Error := some e })) ∧
    (∃ e, Client.IPs testEnv testState (some 0) ["", "not-an-ip"] =
      some (testState, none, some e)) :=
  ⟨by decide, C9_no_valid_ip_short_circuits testEnv testState (some 0) (some 0)
    ["", "not-an-ip"] (by decide)⟩

/-! ## Self lookup -/

/-- Claim C10: on a valid client with a cached self-record, `Me` without
arguments or with a first argument `false` returns the cached record with a
nil error and leaves the memory and the log of calls as they were. -/
theorem C10_me_answers_from_cache (env : Env) (s : State) (a r rec : Addr)
    (forceFetch : List Bool) (hb : (s.clients a).baseReq = some r)
    (hm : (s.clients a).me = some rec)
    (hf : forceFetch = [] ∨ forceFetch.head? = some false) :
    Client.Me env s (some a) forceFetch = some (s, some rec, none) := by
  have hff : (decide (forceFetch.length > 0) && forceFetch.headD false) = false := by
    rcases hf with h | h
    · simp [h]
    · cases forceFetch with
      | nil => simp
      | cons x xs =>
        simp only [List.head?_cons, Option.some.injEq] at h
        simp [h]
  simp only [Client.Me, Client.validate_of_baseReq hb]
  rw [if_pos ⟨by simp [hm], hff⟩, hm]

/-- Claim C10 on the client whose test request cached a record. -/
theorem C10_me_answers_from_cache_witness :
    (testStateCached.clients 0).baseReq = some 0 ∧
    (testStateCached.clients 0).me = some 0 ∧
    (([false, true] : List Bool) = [] ∨ [false, true].head? = some false) ∧
    Client.Me testEnv testStateCached (some 0) [false, true] =
      some (testStateCached, some 0, none) :=
  ⟨by decide, by decide, Or.inr rfl,
    C10_me_answers_from_cache testEnv testStateCached 0 0 0 [false, true]
      (by decide) (by decide) (Or.inr rfl)⟩

/-- The condition of the cached fast path of `Me` fails when nothing is
cached or the first argument is `true`. -/
theorem Client.not_fast_path {s : State} {a : Addr} {forceFetch : List Bool}
    (h : (s.clients a).me = none ∨ forceFetch.head? = some true) :
    ¬((s.clients a).me ≠ none ∧
      (decide (forceFetch.length > 0) && forceFetch.headD false) = false) := by
  rintro ⟨h1, h2⟩
  rcases h with h | h
  · exact h1 h
  · cases forceFetch with
    | nil => simp at h
    | cons x xs =>
      simp only [List.head?_cons, Option.some.injEq] at h
      simp [h] at h2

/-- Claim C11: on a valid client whose baseline template has a transport
handle, `Me` issues exactly one call, to the endpoint followed by `check`,
the built query string and the security suffix when the flag is set,
whenever nothing is cached or the first argument is `true`. -/
theorem C11_me_executes (env : Env) (s : State) (a r : Addr) (cl : HttpClient)
    (forceFetch : List Bool) (hb : (s.clients a).baseReq = some r)
    (hc : (s.requests r).client = some cl)
    (h : (s.clients a).me = none ∨ forceFetch.head? = some true) :
    ∃ s1 rec err, Client.Me env s (some a) forceFetch = some (s1, rec, err) ∧
      s1.calls = s.calls ++
        [(s.requests r).endpoint ++ "check" ++ (s.requests r).reqArgsBuilt ++
          (if (s.requests r).securityEnabled = true then "&security=1" else "")] := by
  have hm : tRequest.Me env s (some r) =
      some ({ s with calls := s.calls ++ [(s.requests r).target "check"] },
        (env.Get cl s.calls ((s.requests r).target "check")).envelope) := by
    simp [tRequest.Me, tRequest.validate_of_client hc, tRequest.do_of_client env hc]
  rw [← tRequest.target_eq]
  simp only [Client.Me, Client.validate_of_baseReq hb, hb]
  rw [if_neg (Client.not_fast_path h)]
  simp only [hm]
  split
  · exact ⟨_, _, _, rfl, rfl⟩
  · split
    · refine ⟨_, _, _, rfl, ?_⟩
      split <;> simp [State.setRecord, Client.meTarget_calls]
    · refine ⟨_, _, _, rfl, ?_⟩
      split <;> simp [State.setRecord, State.setClient, Client.meTarget_calls]

/-- Claim C11 on a client with a cached record and a forced refresh. -/
theorem C11_me_executes_witness :
    (testStateCached.clients 0).baseReq = some 0 ∧
    (testStateCached.requests 0).client = some 0 ∧
    ((testStateCached.clients 0).me = none ∨ [true].head? = some true) ∧
    ∃ s1 rec err, Client.Me testEnv testStateCached (some 0) [true] = some (s1, rec, err) ∧
      s1.calls = testStateCached.calls ++
        ["http://api.ipstack.com/check?access_key=tok&output=json"] :=
  ⟨by decide, by decide, Or.inr rfl,
    C11_me_executes testEnv testStateCached 0 0 0 [true] (by decide) (by decide)
      (Or.inr rfl)⟩

/-- Claim C12, evaluated on the code: a client has cached a self-record whose
`IP` is the text the first request returned; a forced `Me` whose body makes
the stage-2 decoder write the `IP` field and then fail returns an error, and
the cached record, still the same record, now has the `IP` the failed call
wrote. -/
theorem C12_failed_decode_overwrites_cache :
    ∃ s c rec s1 err,
      New testEnvPartial State.empty [.string "tok"] = some (s, some c, none) ∧
      (s.clients c).me = some rec ∧
      (s.records rec).IP = "http://api.ipstack.com/check?access_key=tok&output=json" ∧
      Client.Me testEnvPartial s (some c) [true] = some (s1, some rec, some err) ∧
      (s1.clients c).me = some rec ∧
      (s1.records rec).IP = "9.9.9.9" := by
  refine ⟨_, 0, 0, _, _, rfl, rfl, ?_, rfl, rfl, ?_⟩ <;> decide

/-- Choosing the record `Me` decodes into touches only the store of
records. -/
theorem Client.meTarget_frame (s : State) (me : Option Addr) :
    (Client.meTarget s me).1.requests = s.requests ∧
    (Client.meTarget s me).1.nextRequest = s.nextRequest ∧
    (Client.meTarget s me).1.values = s.values ∧
    (Client.meTarget s me).1.nextValues = s.nextValues ∧
    (Client.meTarget s me).1.nextClient = s.nextClient ∧
    (Client.meTarget s me).1.DefaultClient = s.DefaultClient := by
  cases me <;> simp [Client.meTarget, State.newRecord]

/-- What every call of `Me` on a valid client leaves alone: it returns, the
templates, the parameter maps, the default instance and the allocation
counters of templates, maps and clients are as before, no client changes its
baseline template or its skip flag, and when an error comes back the record
returned is the one cached before and the clients are as before. -/
theorem Client.Me_outcome (env : Env) (s : State) (a r : Addr) (forceFetch : List Bool)
    (hb : (s.clients a).baseReq = some r) :
    ∃ s1 rec err, Client.Me env s (some a) forceFetch = some (s1, rec, err) ∧
      s1.requests = s.requests ∧ s1.nextRequest = s.nextRequest ∧
      s1.values = s.values ∧ s1.nextValues = s.nextValues ∧
      s1.nextClient = s.nextClient ∧ s1.DefaultClient = s.DefaultClient ∧
      (∀ b, (s1.clients b).baseReq = (s.clients b).baseReq ∧
        (s1.clients b).skipInitFetchMe = (s.clients b).skipInitFetchMe) ∧
      (err ≠ none → rec = (s.clients a).me ∧ s1.clients = s.clients) := by
  simp only [Client.Me, Client.validate_of_baseReq hb, hb]
  by_cases hf : (s.clients a).me ≠ none ∧
      (decide (forceFetch.length > 0) && forceFetch.headD false) = false
  · rw [if_pos hf]
    exact ⟨_, _, _, rfl, rfl, rfl, rfl, rfl, rfl, rfl, fun _ => ⟨rfl, rfl⟩, by simp⟩
  · rw [if_neg hf]
    obtain ⟨l, rr, h⟩ := tRequest.Me_frame env s (some r)
    simp only [h]
    obtain ⟨f1, f2, f3, f4, f5, f6⟩ :=
      Client.meTarget_frame { s with calls := s.calls ++ l } (s.clients a).me
    have f7 := Client.meTarget_clients { s with calls := s.calls ++ l } (s.clients a).me
    split
    · exact ⟨_, _, _, rfl, rfl, rfl, rfl, rfl, rfl, rfl, fun _ => ⟨rfl, rfl⟩,
        fun _ => ⟨rfl, rfl⟩⟩
    · split
      · refine ⟨_, _, _, rfl, ?_, ?_, ?_, ?_, ?_, ?_, ?h7, ?h8⟩
        case h7 =>
          intro b
          split <;> simp [State.setRecord, f7]
        case h8 =>
          intro _
          split <;> simp [State.setRecord, f7]
        all_goals (split <;> simp [State.setRecord, f1, f2, f3, f4, f5, f6])
      · refine ⟨_, _, _, rfl, ?_, ?_, ?_, ?_, ?_, ?_, ?h7, by simp⟩
        case h7 =>
          intro b
          by_cases hba : b = a
          · subst hba
            split <;> simp [State.setRecord, State.setClient, f7]
          · split <;> simp [State.setRecord, State.setClient, f7, Function.update, hba]
        all_goals
          (split <;> simp [State.setRecord, State.setClient, f1, f2, f3, f4, f5, f6])

/-- Claim C13, evaluated on the code: a client has cached a self-record whose
`IP` is the text the first request returned; a forced `Me` whose body makes
the stage-2 decoder write the `IP` field and then fail returns an error
together with that record, whose contents are no longer the ones cached
before the call. -/
theorem C13_failed_decode_returns_new_data :
    ∃ s c rec s1 err,
      New testEnvPartial State.empty [.string "tok"] = some (s, some c, none) ∧
      (s.clients c).me = some rec ∧
      Client.Me testEnvPartial s (some c) [true] = some (s1, some rec, some err) ∧
      s.records rec =
        { Response.zero with IP := "http://api.ipstack.com/check?access_key=tok&output=json" } ∧
      s1.records rec = { Response.zero with IP := "9.9.9.9" } ∧
      s1.records rec ≠ s.records rec := by
  refine ⟨_, 0, 0, _, _, rfl, rfl, rfl, ?_, ?_, ?_⟩ <;> decide

/-! ## Response resolution -/

/-- Claim C14: on an envelope without an error whose body the stage-1
decoder reads as `success=false` with the nested error `te`, `CheckError`
stores and returns the API error `te`; `APIError` of it is `te`, with its
code, type and info.  `APIError` of nil or of an error of another kind is
nil, on which `Code` is 0. -/
theorem C14_remote_error_is_api_error (env : Env) (r : tResponse) (te : tError)
    (hE : r.Error = none)
    (hU : env.UnmarshalError (r.RawData.getD "") ⟨true, ⟨0, "", ""⟩⟩ = (⟨false, te⟩, none)) :
    tResponse.CheckError env (some r) =
      (some { r with Error := some (.api te) }, some (.api te)) ∧
    APIError (some (.api te)) = some te ∧
    tError.Code (APIError (some (.api te))) = te.RawCode ∧
    tError.Type_ (APIError (some (.api te))) = te.RawType ∧
    tError.Info (APIError (some (.api te))) = te.RawInfo ∧
    (∀ e : Option GoError, (∀ t, e ≠ some (.api t)) →
      APIError e = none ∧ tError.Code (APIError e) = 0) := by
  refine ⟨?_, rfl, rfl, rfl, rfl, ?_⟩
  · simp [tResponse.CheckError, hE, hU]
  · intro e he
    have h : APIError e = none := by
      cases e with
      | none => rfl
      | some g =>
        cases g with
        | errorf m => rfl
        | api t => exact absurd rfl (he t)
        | lib m => rfl
    rw [h]
    exact ⟨rfl, rfl⟩

/-- Claim C14 at a body read as the remote error 104. -/
theorem C14_remote_error_is_api_error_witness :
    (⟨some "fail", none⟩ : tResponse).Error = none ∧
    testEnv.UnmarshalError ((⟨some "fail", none⟩ : tResponse).RawData.getD "")
      ⟨true, ⟨0, "", ""⟩⟩ = (⟨false, ⟨104, "x", "y"⟩⟩, none) ∧
    (tResponse.CheckError testEnv (some ⟨some "fail", none⟩) =
      (some ⟨some "fail", some (.api ⟨104, "x", "y"⟩)⟩, some (.api ⟨104, "x", "y"⟩)) ∧
    APIError (some (.api ⟨104, "x", "y"⟩)) = some ⟨104, "x", "y"⟩ ∧
    tError.Code (APIError (some (.api ⟨104, "x", "y"⟩))) = 104 ∧
    tError.Type_ (APIError (some (.api ⟨104, "x", "y"⟩))) = "x" ∧
    tError.Info (APIError (some (.api ⟨104, "x", "y"⟩))) = "y" ∧
    (∀ e : Option GoError, (∀ t, e ≠ some (.api t)) →
      APIError e = none ∧ tError.Code (APIError e) = 0)) :=
  ⟨rfl, by decide,
    C14_remote_error_is_api_error testEnv ⟨some "fail", none⟩ ⟨104, "x", "y"⟩ rfl (by decide)⟩

/-- Claim C15 fails as stated: the body `{"success":true,"error":"x"}` is a
JSON object that carries `success=true`; the stage-1 decoder sets the flag
and reports the `error` member of the wrong type, and `CheckError` stores
that error in the envelope and returns `Decode JSON error (...)`. -/
theorem C15_counterexample :
    (∀ v, (testEnvTypeError.UnmarshalError bodyErrorMemberIsText v).1.Success = true) ∧
    tResponse.CheckError testEnvTypeError (some ⟨some bodyErrorMemberIsText, none⟩) =
      (some ⟨some bodyErrorMemberIsText, some (.lib
        "json: cannot unmarshal string into Go struct field tResponseError.error of type ipstack.tError")⟩,
       some (.errorf
        "Decode JSON error (json: cannot unmarshal string into Go struct field tResponseError.error of type ipstack.tError)")) :=
  ⟨fun _ => rfl, by decide⟩

/-- Claim C15, amended: on an envelope without an error whose body the
stage-1 decoder reads as `success=true` or in which it leaves the success
flag as it finds it (the field is absent), `CheckError` returns nil and the
envelope is as before, its error nil, when the decoder reports no error: the
flag starts as `true`.  When the decoder reports an error `m`, `CheckError`
stores `m` in the envelope and returns `Decode JSON error (m)`. -/
theorem C15_success_or_absent_flag (env : Env) (r : tResponse) (hE : r.Error = none)
    (hS : (∀ v, (env.UnmarshalError (r.RawData.getD "") v).1.Success = true) ∨
      (∀ v, (env.UnmarshalError (r.RawData.getD "") v).1.Success = v.Success)) :
    ((env.UnmarshalError (r.RawData.getD "") ⟨true, ⟨0, "", ""⟩⟩).2 = none →
      tResponse.CheckError env (some r) = (some r, none) ∧
      ((tResponse.CheckError env (some r)).1.bind fun e => e.Error) = none) ∧
    (∀ m, (env.UnmarshalError (r.RawData.getD "") ⟨true, ⟨0, "", ""⟩⟩).2 = some m →
      tResponse.CheckError env (some r) =
        (some { r with Error := some (.lib m) },
         some (.errorf (Sprintf "Decode JSON error (%s)" [m])))) := by
  refine ⟨fun hU => ?_, fun m hU => ?_⟩
  · have hT : (env.UnmarshalError (r.RawData.getD "") ⟨true, ⟨0, "", ""⟩⟩).1.Success = true := by
      rcases hS with h | h
      · exact h _
      · rw [h]
    have hr : ({ r with Error := none } : tResponse) = r := by
      cases r
      simp only [tResponse.mk.injEq, true_and]
      exact hE.symm
    have h1 : tResponse.CheckError env (some r) = (some r, none) := by
      simp [tResponse.CheckError, hE, hU, hT, hr]
    exact ⟨h1, by rw [h1]; exact hE⟩
  · simp [tResponse.CheckError, hE, hU, GoError.Error]

/-- Claim C15, amended, at a body that has no success field and decodes. -/
theorem C15_success_or_absent_flag_witness :
    (⟨some "ok", none⟩ : tResponse).Error = none ∧
    ((∀ v, (testEnv.UnmarshalError ((⟨some "ok", none⟩ : tResponse).RawData.getD "") v).1.Success
        = true) ∨
      (∀ v, (testEnv.UnmarshalError ((⟨some "ok", none⟩ : tResponse).RawData.getD "") v).1.Success
        = v.Success)) ∧
    (testEnv.UnmarshalError ((⟨some "ok", none⟩ : tResponse).RawData.getD "")
      ⟨true, ⟨0, "", ""⟩⟩).2 = none ∧
    tResponse.CheckError testEnv (some ⟨some "ok", none⟩) = (some ⟨some "ok", none⟩, none) ∧
    ((tResponse.CheckError testEnv (some ⟨some "ok", none⟩)).1.bind fun e => e.Error) = none :=
  ⟨rfl, Or.inr (fun _ => rfl), by decide,
    (C15_success_or_absent_flag testEnv ⟨some "ok", none⟩ rfl (Or.inr (fun _ => rfl))).1
      (by decide)⟩

/-- Claim C16: on an envelope whose error is set, `DecodeTo` returns exactly
that error for every destination, the nil one included, whatever the decoder
of the destination is, and the destination is as before.  `DecodeTo` has no
assignment to the envelope, which is why the envelope is not part of its
result. -/
theorem C16_decode_passes_error_through {α : Type}
    (unmarshal : String → α → α × Option String) (r : tResponse) (e : GoError)
    (i : Option α) (h : r.Error = some e) :
    tResponse.DecodeTo unmarshal (some r) i = (i, some e) := by
  simp [tResponse.DecodeTo, h]

/-- Claim C16 at an envelope that carries both bytes and an error. -/
theorem C16_decode_passes_error_through_witness :
    (⟨some "ok", some (.lib "timeout")⟩ : tResponse).Error = some (.lib "timeout") ∧
    tResponse.DecodeTo testEnv.UnmarshalRecord (some ⟨some "ok", some (.lib "timeout")⟩)
      (some Response.zero) = (some Response.zero, some (.lib "timeout")) :=
  ⟨rfl, C16_decode_passes_error_through testEnv.UnmarshalRecord
    ⟨some "ok", some (.lib "timeout")⟩ (.lib "timeout") (some Response.zero) rfl⟩

/-- Claim C17, evaluated on the code: the envelope `tRequest.IP` returns for
a body carrying a remote error has the bytes and no error; after `CheckError`
it has the API error and still the bytes. -/
theorem C17_check_error_keeps_raw_data :
    ∃ s1 rr,
      tRequest.IP testEnv testStateFail (some 0) "1.2.3.4" = some (s1, rr) ∧
      rr = ⟨some "fail", none⟩ ∧
      (tResponse.CheckError testEnv (some rr)).1 =
        some ⟨some "fail", some (.api ⟨104, "x", "y"⟩)⟩ := by
  refine ⟨_, _, rfl, ?_, ?_⟩ <;> decide

/-- Claim C18: on a valid template `do` issues the call and returns; when
the call fails, the response has no body or draining it fails, the envelope
has an error and nil data; otherwise it has exactly the drained bytes and a
nil error. -/
theorem C18_do_envelope (env : Env) (s : State) (a : Addr) (cl : HttpClient)
    (method : String) (hc : (s.requests a).client = some cl) :
    ∃ s1 rr, tRequest.do_ env s (some a) method = some (s1, rr) ∧
      s1.calls = s.calls ++ [(s.requests a).target method] ∧
      (∀ b, env.Get cl s.calls ((s.requests a).target method) = .body b →
        rr = { RawData := some b, Error := none }) ∧
      ((∀ b, env.Get cl s.calls ((s.requests a).target method) ≠ .body b) →
        rr.RawData = none ∧ rr.Error ≠ none) := by
  refine ⟨_, _, tRequest.do_of_client env hc method, rfl, ?_, ?_⟩
  · intro b hb
    rw [hb]
    rfl
  · intro hnb
    cases hg : env.Get cl s.calls ((s.requests a).target method) with
    | getErr m => simp [GetResult.envelope, resp]
    | nilBody => simp [GetResult.envelope, resps]
    | readErr m => simp [GetResult.envelope, resps]
    | body b => exact absurd hg (hnb b)

/-- Claim C18 on a template whose transport echoes the target. -/
theorem C18_do_envelope_witness :
    (testState.requests 0).client = some 0 ∧
    ∃ s1 rr, tRequest.do_ testEnv testState (some 0) "check" = some (s1, rr) ∧
      s1.calls = testState.calls ++ ["http://api.ipstack.com/check?access_key=tok&output=json"] ∧
      (∀ b, testEnv.Get 0 testState.calls
          "http://api.ipstack.com/check?access_key=tok&output=json" = .body b →
        rr = { RawData := some b, Error := none }) ∧
      ((∀ b, testEnv.Get 0 testState.calls
          "http://api.ipstack.com/check?access_key=tok&output=json" ≠ .body b) →
        rr.RawData = none ∧ rr.Error ≠ none) :=
  ⟨by decide, C18_do_envelope testEnv testState 0 0 "check" (by decide)⟩

/-! ## Construction: what `New` establishes -/

/-- A parameter closure applied to a client with a baseline template returns;
the client keeps that template, no template is allocated, no call is issued,
and only the closure of `ParamToken` changes the token. -/
theorem tClientParam.call_inv (f : tClientParam) (s : State) (c r : Addr)
    (hb : (s.clients c).baseReq = some r) :
    ∃ s1, f.call s (some c) = some s1 ∧ (s1.clients c).baseReq = some r ∧
      s1.nextRequest = s.nextRequest ∧ s1.calls = s.calls ∧
      ((∀ t, f ≠ .token t) → (s1.requests r).token = (s.requests r).token) := by
  cases f with
  | token tok =>
    refine ⟨s.setRequest r { s.requests r with token := tok },
      by simp only [tClientParam.call, hb], hb, rfl, rfl, ?_⟩
    intro h
    exact absurd rfl (h tok)
  | disableFirstMeCall =>
    refine ⟨_, rfl, ?_, rfl, rfl, fun _ => rfl⟩
    simp [State.setClient, hb]
  | useHTTPS is =>
    refine ⟨_, rfl, ?_, ?_, ?_, fun _ => ?_⟩
    · simp [State.setClient, hb, tRequest.UseHTTPS]
    · cases is <;> simp [State.setClient, State.setRequest, hb, tRequest.UseHTTPS]
    · cases is <;> simp [State.setClient, State.setRequest, hb, tRequest.UseHTTPS]
    · cases is <;> simp [State.setClient, State.setRequest, hb, tRequest.UseHTTPS]
  | fields names =>
    by_cases hl : names.length = 0
    · refine ⟨_, rfl, ?_, ?_, ?_, fun _ => ?_⟩ <;>
        simp [State.setClient, hb, tRequest.Fields, hl]
    · refine ⟨_, rfl, ?_, ?_, ?_, fun _ => ?_⟩ <;>
        simp [State.setClient, State.setRequest, State.setValues, hb, tRequest.Fields, hl]
  | enableSecurity =>
    refine ⟨_, rfl, ?_, ?_, ?_, fun _ => ?_⟩ <;>
      simp [State.setClient, State.setRequest, hb, tRequest.EnableSecuity]

/-- The invariant of `tClientParam.call_inv` along `applyParams`. -/
theorem Client.applyParams_inv (c r : Addr) (params : List Param) (s : State)
    (hb : (s.clients c).baseReq = some r) :
    ∃ s1, Client.applyParams (some c) params s = some s1 ∧
      (s1.clients c).baseReq = some r ∧
      s1.nextRequest = s.nextRequest ∧ s1.calls = s.calls ∧
      ((∀ p ∈ params, ∀ t, p ≠ .clientParam (some (.token t))) →
        (s1.requests r).token = (s.requests r).token) := by
  induction params generalizing s with
  | nil => exact ⟨s, rfl, hb, rfl, rfl, fun _ => rfl⟩
  | cons p rest ih =>
    cases p with
    | clientParam v =>
      cases v with
      | none =>
        obtain ⟨s1, h1, h2, h3, h4, h5⟩ := ih s hb
        refine ⟨s1, by simpa [Client.applyParams] using h1, h2, h3, h4, fun hp => h5 ?_⟩
        intro q hq
        exact hp q (List.mem_cons_of_mem _ hq)
      | some f =>
        obtain ⟨s0, g1, g2, g3, g4, g5⟩ := tClientParam.call_inv f s c r hb
        obtain ⟨s1, h1, h2, h3, h4, h5⟩ := ih s0 g2
        refine ⟨s1, by simp [Client.applyParams, g1, h1], h2, by rw [h3, g3],
          by rw [h4, g4], fun hp => ?_⟩
        rw [h5 (fun q hq => hp q (List.mem_cons_of_mem _ hq)), g5]
        intro t ht
        exact hp _ (List.mem_cons_self _ _) t (by rw [ht])
    | nil | string v | bytes v | httpClient v | httpClientPtr v | other =>
      obtain ⟨s1, h1, h2, h3, h4, h5⟩ := ih s hb
      refine ⟨s1, by simpa [Client.applyParams] using h1, h2, h3, h4, fun hp => h5 ?_⟩
      intro q hq
      exact hp q (List.mem_cons_of_mem _ hq)

theorem State.newClient_spec (s : State) :
    s.newClient.2 = s.nextClient ∧
    (s.newClient.1.clients s.nextClient).baseReq = some s.nextRequest ∧
    s.newClient.1.nextRequest = s.nextRequest + 1 ∧
    s.newClient.1.calls = s.calls ∧
    (s.newClient.1.requests s.nextRequest).token = "" := by
  simp [State.newClient]

theorem New.defaults_frame (s : State) (r : Addr) (params : List Param) :
    (New.defaults s r params).clients = s.clients ∧
    (New.defaults s r params).nextRequest = s.nextRequest ∧
    (New.defaults s r params).calls = s.calls := by
  unfold New.defaults
  simp only [State.setRequest, State.setValues]
  refine ⟨?_, ?_, ?_⟩ <;> (repeat' split) <;> rfl

/-- The memory `New` hands to its token check: the new client after the
parameter closures and the token fallback. -/
theorem New_before_token_check (env : Env) (s0 : State) (params : List Param) :
    ∃ sT, (sT.clients s0.nextClient).baseReq = some s0.nextRequest ∧
      sT.nextRequest = s0.nextRequest + 1 ∧ sT.calls = s0.calls ∧
      ((∀ p ∈ params, ∀ t, p ≠ .clientParam (some (.token t))) →
        (sT.requests s0.nextRequest).token = extractToken params) ∧
      New env s0 params =
        if (sT.requests s0.nextRequest).token = "" then
          some (sT, none, some (.errorf "Token argument (string or []byte) is required"))
        else
          match (if ((New.defaults sT s0.nextRequest params).clients s0.nextClient).skipInitFetchMe
                = false then
              (Client.Me env (New.defaults sT s0.nextRequest params) (some s0.nextClient) []).map
                fun out => (out.1, out.2.2)
            else some (New.defaults sT s0.nextRequest params, none)) with
          | none => none
          | some (s, some err) =>
            some (s, none, some (.errorf (Sprintf "Test request error (%s)" [err.Error])))
          | some (s, none) =>
            some (if s.DefaultClient = none then
              { s with DefaultClient := some s0.nextClient } else s, some s0.nextClient, none) := by
  obtain ⟨n1, n2, n3, n4, n5⟩ := State.newClient_spec s0
  obtain ⟨sA, a1, a2, a3, a4, a5⟩ :=
    Client.applyParams_inv s0.nextClient s0.nextRequest params s0.newClient.1 n2
  by_cases ht : (sA.requests s0.nextRequest).token = ""
  · refine ⟨sA.setRequest s0.nextRequest
        { sA.requests s0.nextRequest with token := extractToken params },
      a2, by rw [← n3, ← a3]; rfl, by rw [← n4, ← a4]; rfl, fun _ => by simp [State.setRequest],
      ?_⟩
    simp only [New, n1, a1, a2, ht, if_true]
  · refine ⟨sA, a2, by rw [a3, n3], by rw [a4, n4], fun hp => ?_, ?_⟩
    · exact absurd (by rw [a5 hp, n5]) ht
    · simp only [New, n1, a1, a2, ht, if_false]

/-- `New` returns; with an error the client is nil, without one the client
is the newly allocated one and its baseline template is the newly allocated
template. -/
theorem New_outcome (env : Env) (s0 : State) (params : List Param) :
    ∃ s c err, New env s0 params = some (s, c, err) ∧
      (err ≠ none → c = none) ∧
      (err = none → c = some s0.nextClient ∧
        (s.clients s0.nextClient).baseReq = some s0.nextRequest ∧
        s.nextRequest = s0.nextRequest + 1) := by
  obtain ⟨sT, t1, t2, t3, -, hN⟩ := New_before_token_check env s0 params
  rw [hN]
  by_cases ht : (sT.requests s0.nextRequest).token = ""
  · rw [if_pos ht]
    exact ⟨_, _, _, rfl, fun _ => rfl, by simp⟩
  · rw [if_neg ht]
    obtain ⟨d1, d2, d3⟩ := New.defaults_frame sT s0.nextRequest params
    by_cases hs : ((New.defaults sT s0.nextRequest params).clients s0.nextClient).skipInitFetchMe
        = false
    · rw [if_pos hs]
      obtain ⟨s1, rec, err, hMe, -, m2, -, -, -, -, m7, -⟩ :=
        Client.Me_outcome env (New.defaults sT s0.nextRequest params) s0.nextClient
          s0.nextRequest [] (by rw [d1]; exact t1)
      rw [hMe]
      cases err with
      | some e => exact ⟨_, _, _, rfl, fun _ => rfl, by simp⟩
      | none =>
        refine ⟨_, _, _, rfl, by simp, fun _ => ⟨rfl, ?_, ?_⟩⟩
        · simp only [Option.map_some']
          split <;> simp [(m7 s0.nextClient).1, d1, t1]
        · simp only [Option.map_some']
          split <;> simp [m2, d2, t2]
    · rw [if_neg hs]
      refine ⟨_, _, _, rfl, by simp, fun _ => ⟨rfl, ?_, ?_⟩⟩
      · split <;> simp [d1, t1]
      · split <;> simp [d2, t2]

/-- Configuring the clone `R` returns never reaches the template it was
copied from, when that template was allocated before. -/
theorem Client.R_configure_frame (s : State) (c r : Addr)
    (hb : (s.clients c).baseReq = some r) (hlt : r < s.nextRequest) :
    ∃ s1 t, Client.R s (some c) = some (s1, some t) ∧ t ≠ r ∧
      (∀ is, (tRequest.UseHTTPS s1 (some t) is).1.requests r = s.requests r ∧
        ((tRequest.UseHTTPS s1 (some t) is).1.clients c).baseReq = some r) ∧
      (∀ is, (tRequest.EnableSecuity s1 (some t) is).1.requests r = s.requests r ∧
        ((tRequest.EnableSecuity s1 (some t) is).1.clients c).baseReq = some r) := by
  have hne : r ≠ s.nextRequest := Nat.ne_of_lt hlt
  refine ⟨{ s with requests := Function.update s.requests s.nextRequest (s.requests r),
                   nextRequest := s.nextRequest + 1 }, s.nextRequest,
    by simp only [Client.R, Client.validate_of_baseReq hb, hb, tRequest.copy],
    fun h => hne h.symm, ?_, ?_⟩
  · intro is
    cases is <;> simp [tRequest.UseHTTPS, State.setRequest, Function.update, hne, hb]
  · intro is
    cases is <;> simp [tRequest.EnableSecuity, State.setRequest, Function.update, hne, hb]

/-- Claim C19: for a client built by `New`, `R` returns a template other
than the baseline one, and `UseHTTPS` or `EnableSecuity` applied to it leaves
the baseline template as it was, endpoint and security flag included, and
the client still holds that baseline. -/
theorem C19_clone_scheme_and_flag (env : Env) (s0 s : State) (params : List Param)
    (c : Addr) (hNew : New env s0 params = some (s, some c, none)) :
    ∃ r s1 t, (s.clients c).baseReq = some r ∧
      Client.R s (some c) = some (s1, some t) ∧ t ≠ r ∧
      (∀ is, (tRequest.UseHTTPS s1 (some t) is).1.requests r = s.requests r ∧
        ((tRequest.UseHTTPS s1 (some t) is).1.clients c).baseReq = some r) ∧
      (∀ is, (tRequest.EnableSecuity s1 (some t) is).1.requests r = s.requests r ∧
        ((tRequest.EnableSecuity s1 (some t) is).1.clients c).baseReq = some r) := by
  obtain ⟨s2, c2, err, h, -, hs⟩ := New_outcome env s0 params
  rw [h] at hNew
  simp only [Option.some.injEq, Prod.mk.injEq] at hNew
  obtain ⟨rfl, rfl, rfl⟩ := hNew
  obtain ⟨hc, hb, hn⟩ := hs rfl
  simp only [Option.some.injEq] at hc
  subst hc
  obtain ⟨s1, t, h1, h2, h3, h4⟩ :=
    Client.R_configure_frame s2 s0.nextClient s0.nextRequest hb (by rw [hn]; exact Nat.lt_succ_self _)
  exact ⟨s0.nextRequest, s1, t, hb, h1, h2, h3, h4⟩

/-- Claim C19 on the client built by `New("tok")`. -/
theorem C19_clone_scheme_and_flag_witness :
    New testEnv State.empty [.string "tok"] = some (testStateCached, some 0, none) ∧
    ∃ r s1 t, (testStateCached.clients 0).baseReq = some r ∧
      Client.R testStateCached (some 0) = some (s1, some t) ∧ t ≠ r ∧
      (∀ is, (tRequest.UseHTTPS s1 (some t) is).1.requests r = testStateCached.requests r ∧
        ((tRequest.UseHTTPS s1 (some t) is).1.clients 0).baseReq = some r) ∧
      (∀ is, (tRequest.EnableSecuity s1 (some t) is).1.requests r = testStateCached.requests r ∧
        ((tRequest.EnableSecuity s1 (some t) is).1.clients 0).baseReq = some r) :=
  ⟨rfl, C19_clone_scheme_and_flag testEnv State.empty testStateCached [.string "tok"] 0 rfl⟩

theorem extractTokenLoop_blank (params : List Param)
    (h : ∀ p ∈ params, ∀ v, p = .string v ∨ p = .bytes v → TrimSpace v = "") :
    ∀ acc, TrimSpace acc = "" → TrimSpace (extractTokenLoop params acc) = "" := by
  induction params with
  | nil => intro acc ha; exact ha
  | cons p rest ih =>
    have hr : ∀ q ∈ rest, ∀ v, q = .string v ∨ q = .bytes v → TrimSpace v = "" :=
      fun q hq => h q (List.mem_cons_of_mem _ hq)
    intro acc ha
    cases p with
    | string v => exact ih hr v (h _ (List.mem_cons_self _ _) v (Or.inl rfl))
    | bytes v => exact ih hr v (h _ (List.mem_cons_self _ _) v (Or.inr rfl))
    | nil | httpClient v | httpClientPtr v | clientParam v | other => exact ih hr acc ha

/-- Claim C20: `New` returns; whenever it returns an error the client is
nil; and for a parameter list with no token closure (`ParamToken` gives one
only for a non-blank value) and no string or byte value that is non-empty
after trimming, `New` returns a nil client and an error and the log of calls
is as before. -/
theorem C20_new_error_gives_nil_client (env : Env) (s0 : State) (params : List Param) :
    (∃ out, New env s0 params = some out) ∧
    (∀ s c e, New env s0 params = some (s, c, some e) → c = none) ∧
    ((∀ p ∈ params, (∀ t, p ≠ .clientParam (some (.token t))) ∧
        (∀ v, p = .string v ∨ p = .bytes v → TrimSpace v = "")) →
      ∃ s e, New env s0 params = some (s, none, some e) ∧ s.calls = s0.calls) := by
  refine ⟨?_, ?_, ?_⟩
  · obtain ⟨s, c, err, h, -, -⟩ := New_outcome env s0 params
    exact ⟨_, h⟩
  · intro s c e hN
    obtain ⟨s2, c2, err, h, he, -⟩ := New_outcome env s0 params
    rw [h] at hN
    simp only [Option.some.injEq, Prod.mk.injEq] at hN
    obtain ⟨-, rfl, rfl⟩ := hN
    exact he (by simp)
  · intro hp
    obtain ⟨sT, -, -, t3, t4, hN⟩ := New_before_token_check env s0 params
    have htok : (sT.requests s0.nextRequest).token = "" := by
      rw [t4 (fun p hp1 => (hp p hp1).1)]
      exact extractTokenLoop_blank params (fun p hp1 => (hp p hp1).2) "" (by decide)
    rw [if_pos htok] at hN
    exact ⟨_, _, hN, t3⟩

theorem blankParams_have_no_token :
    ∀ p ∈ [Param.string "  ", .clientParam (ParamToken " \t"), .httpClient 1],
      (∀ t, p ≠ .clientParam (some (.token t))) ∧
      (∀ v, p = .string v ∨ p = .bytes v → TrimSpace v = "") := by
  have hT : ParamToken " \t" = none := by decide
  rw [hT]
  intro p hp
  simp only [List.mem_cons, List.mem_singleton, List.not_mem_nil, or_false] at hp
  rcases hp with rfl | rfl | rfl
  · refine ⟨fun t h => Param.noConfusion h, fun v h => ?_⟩
    rcases h with h | h
    · cases h
      decide
    · exact nomatch h
  · refine ⟨fun t h => ?_, fun v h => ?_⟩
    · cases h
    · rcases h with h | h <;> exact nomatch h
  · refine ⟨fun t h => Param.noConfusion h, fun v h => ?_⟩
    rcases h with h | h <;> exact nomatch h

/-- Claim C20 on a list with a blank string, a blank `ParamToken` and a
transport handle. -/
theorem C20_new_error_gives_nil_client_witness :
    (∀ p ∈ [Param.string "  ", .clientParam (ParamToken " \t"), .httpClient 1],
      (∀ t, p ≠ .clientParam (some (.token t))) ∧
      (∀ v, p = .string v ∨ p = .bytes v → TrimSpace v = "")) ∧
    ∃ s e, New testEnv State.empty
        [.string "  ", .clientParam (ParamToken " \t"), .httpClient 1] =
      some (s, none, some e) ∧ s.calls = State.empty.calls :=
  ⟨blankParams_have_no_token,
    (C20_new_error_gives_nil_client testEnv State.empty
      [.string "  ", .clientParam (ParamToken " \t"), .httpClient 1]).2.2
      blankParams_have_no_token⟩

/-! ## Typed parameter resolver -/

theorem extractTokenLoop_eq (params : List Param) :
    ∀ acc, extractTokenLoop params acc = (lastTextParam params).getD acc := by
  induction params with
  | nil => intro acc; rfl
  | cons p rest ih =>
    intro acc
    cases p with
    | string v =>
      simp only [extractTokenLoop, lastTextParam, List.filterMap_cons, Param.text,
        List.getLast?_cons, Option.getD_some]
      exact ih v
    | bytes v =>
      simp only [extractTokenLoop, lastTextParam, List.filterMap_cons, Param.text,
        List.getLast?_cons, Option.getD_some]
      exact ih v
    | nil | httpClient v | httpClientPtr v | clientParam v | other =>
      simp only [extractTokenLoop, lastTextParam, List.filterMap_cons, Param.text]
      exact ih acc

/-- Claim C21: `extractToken` returns the trimmed text of the last element
that is a string or a `[]byte`, whatever the other elements are, and the
empty string when there is no such element. -/
theorem C21_extract_token_last_wins (params : List Param) :
    extractToken params = TrimSpace ((lastTextParam params).getD "") ∧
    (lastTextParam params = none → extractToken params = "") := by
  have h : extractToken params = TrimSpace ((lastTextParam params).getD "") := by
    rw [extractToken, extractTokenLoop_eq]
  refine ⟨h, fun hn => ?_⟩
  rw [h, hn]
  decide

/-- Claim C21 on a list with two texts among other elements, and on a list
without a text. -/
theorem C21_extract_token_last_wins_witness :
    (extractToken [.string "first", .httpClient 0, .bytes " second\n", .other, .nil] =
      "second") ∧
    (lastTextParam [.httpClient 0, .other] = none ∧ extractToken [.httpClient 0, .other] = "") :=
  ⟨(C21_extract_token_last_wins
      [.string "first", .httpClient 0, .bytes " second\n", .other, .nil]).1,
    rfl, (C21_extract_token_last_wins [.httpClient 0, .other]).2 rfl⟩

/-! ## Missing templates -/

/-- Claim C23: on a nil template `copy`, `UseHTTPS`, `EnableSecuity` and
`Fields` return nil and leave the memory as it was; on a nil template, and on
a template without a transport handle, `IP`, `IPs` and `Me` return an
envelope with an error and nil data and leave the memory and the log of calls
as they were. -/
theorem C23_missing_template_is_tolerated (env : Env) (s : State) :
    tRequest.copy s none = (s, none) ∧
    (∀ is, tRequest.UseHTTPS s none is = (s, none)) ∧
    (∀ is, tRequest.EnableSecuity s none is = (s, none)) ∧
    (∀ names, tRequest.Fields s none names = (s, none)) ∧
    (∀ r, r = none ∨ (∃ a, r = some a ∧ (s.requests a).client = none) →
      (∀ ip, ∃ e, tRequest.IP env s r ip = some (s, { RawData := none, Error := some e })) ∧
      (∀ ips, ∃ e, tRequest.IPs env s r ips = some (s, { RawData := none, Error := some e })) ∧
      (∃ e, tRequest.Me env s r = some (s, { RawData := none, Error := some e }))) := by
  refine ⟨rfl, fun _ => rfl, fun _ => rfl, fun _ => rfl, ?_⟩
  intro r hr
  have hv : ∃ e, tRequest.validate s r = some e := by
    rcases hr with rfl | ⟨a, rfl, hc⟩
    · exact ⟨_, rfl⟩
    · exact ⟨.errorf "Nil http.Client object in request", by simp [tRequest.validate, hc]⟩
  obtain ⟨e, he⟩ := hv
  refine ⟨fun ip => ⟨e, ?_⟩, fun ips => ⟨e, ?_⟩, ⟨e, ?_⟩⟩
  · simp [tRequest.IP, he, resp]
  · simp [tRequest.IPs, he, resp]
  · simp [tRequest.Me, he, resp]

/-- Claim C23 on the nil template and on a template of the empty memory,
which has no transport handle. -/
theorem C23_missing_template_is_tolerated_witness :
    ((none : Option Addr) = none ∨
      (∃ a, (none : Option Addr) = some a ∧ (testState.requests a).client = none)) ∧
    ((some 0 : Option Addr) = none ∨
      (∃ a, (some 0 : Option Addr) = some a ∧ (State.empty.requests a).client = none)) ∧
    (∃ e, tRequest.IP testEnv testState none "1.2.3.4" =
      some (testState, { RawData := none, Error := some e })) ∧
    (∃ e, tRequest.Me testEnv State.empty (some 0) =
      some (State.empty, { RawData := none, Error := some e })) :=
  ⟨Or.inl rfl, Or.inr ⟨0, rfl, rfl⟩,
    ((C23_missing_template_is_tolerated testEnv testState).2.2.2.2 none (Or.inl rfl)).1 "1.2.3.4",
    ((C23_missing_template_is_tolerated testEnv State.empty).2.2.2.2 (some 0)
      (Or.inr ⟨0, rfl, rfl⟩)).2.2⟩

/-! ## The security flag -/

/-- Claim C26: `EnableSecuity(false)` leaves the memory, and so the security
flag, as it was; a template whose flag is set still has it set afterwards and
its targets still end with `&security=1`; `EnableSecuity(true)` sets the flag
of its receiver and changes no other field and no other template. -/
theorem C26_security_only_turns_on (s : State) (a : Addr) :
    tRequest.EnableSecuity s (some a) false = (s, some a) ∧
    ((s.requests a).securityEnabled = true →
      ∀ method,
        ((tRequest.EnableSecuity s (some a) false).1.requests a).target method =
          (s.requests a).endpoint ++ method ++ (s.requests a).reqArgsBuilt ++ "&security=1") ∧
    tRequest.EnableSecuity s (some a) true =
      (s.setRequest a { s.requests a with securityEnabled := true }, some a) ∧
    ((tRequest.EnableSecuity s (some a) true).1.requests a) =
      { s.requests a with securityEnabled := true } ∧
    (∀ b, b ≠ a → (tRequest.EnableSecuity s (some a) true).1.requests b = s.requests b) := by
  refine ⟨rfl, ?_, rfl, ?_, ?_⟩
  · intro h method
    rw [tRequest.target_eq]
    simp [tRequest.EnableSecuity, h]
  · simp [tRequest.EnableSecuity, State.setRequest]
  · intro b hb
    simp [tRequest.EnableSecuity, State.setRequest, Function.update, hb]

/-- Claim C26 on a template whose flag was set before. -/
theorem C26_security_only_turns_on_witness :
    ((tRequest.EnableSecuity testState (some 0) true).1.requests 0).securityEnabled = true ∧
    ∀ method,
      ((tRequest.EnableSecuity (tRequest.EnableSecuity testState (some 0) true).1
        (some 0) false).1.requests 0).target method =
        ((tRequest.EnableSecuity testState (some 0) true).1.requests 0).endpoint ++ method ++
          ((tRequest.EnableSecuity testState (some 0) true).1.requests 0).reqArgsBuilt ++
          "&security=1" :=
  ⟨by decide, (C26_security_only_turns_on (tRequest.EnableSecuity testState (some 0) true).1 0).2.1
    (by decide)⟩

/-! ## The parameter map of a client -/

/-- The encoding of a parameter map with `access_key`, `output` and possibly
`fields`, behind a `?`. -/
theorem Values.built_of_hasParams {v : Values} {t : String} {f : Option String}
    (h : v.hasParams t f) : "?" ++ v.Encode = builtQuery t f := by
  obtain ⟨entries⟩ := v
  cases f with
  | none =>
    simp only [Values.hasParams] at h
    subst h
    have e : Values.Encode ⟨[("access_key", [t]), ("output", ["json"])]⟩ =
        ("access_key" ++ "=" ++ QueryEscape t) ++ "&" ++ ("output" ++ "=" ++ "json") := rfl
    rw [e, builtQuery]
    apply String.ext
    simp [String.data_append]
  | some x =>
    simp only [Values.hasParams] at h
    have e : Values.Encode ⟨entries⟩ =
        ("access_key" ++ "=" ++ QueryEscape t) ++ "&" ++
          (("fields" ++ "=" ++ QueryEscape x) ++ "&" ++ ("output" ++ "=" ++ "json")) := by
      rcases h with h | h <;> subst h <;> rfl
    rw [e, builtQuery]
    apply String.ext
    simp [String.data_append]

theorem Values.Get_fields_of_hasParams {v : Values} {t : String} {f : Option String}
    (h : v.hasParams t f) : v.Get "fields" = f.getD "" := by
  obtain ⟨entries⟩ := v
  cases f with
  | none =>
    simp only [Values.hasParams] at h
    subst h
    rfl
  | some x =>
    simp only [Values.hasParams] at h
    rcases h with h | h <;> subst h <;> rfl

theorem Values.Set_fields_hasParams {v : Values} {t : String} {f : Option String}
    (h : v.hasParams t f) (y : String) : (v.Set "fields" y).hasParams t (some y) := by
  obtain ⟨entries⟩ := v
  cases f with
  | none =>
    simp only [Values.hasParams] at h
    subst h
    exact Or.inr rfl
  | some x =>
    simp only [Values.hasParams] at h
    rcases h with h | h <;> subst h
    · exact Or.inl rfl
    · exact Or.inr rfl

theorem Values.Set_fields_onlyFields {v : Values} (h : v.onlyFields) (y : String) :
    (v.Set "fields" y).onlyFields := by
  obtain ⟨entries⟩ := v
  rcases h with h | ⟨x, h⟩ <;> simp only at h <;> subst h <;> exact Or.inr ⟨y, rfl⟩

/-- What `New` makes of the map the parameter closures left. -/
theorem Values.hasParams_of_onlyFields {v : Values} (h : v.onlyFields) (t : String) :
    ∃ f, ((v.Set "access_key" t).Set "output" "json").hasParams t f := by
  obtain ⟨entries⟩ := v
  rcases h with h | ⟨x, h⟩ <;> simp only at h <;> subst h
  · exact ⟨none, rfl⟩
  · exact ⟨some x, Or.inl rfl⟩

/-- What `Fields` with at least one name does to the memory. -/
theorem tRequest.Fields_spec (s : State) (a : Addr) (names : List String)
    (hn : names ≠ []) :
    (tRequest.Fields s (some a) names).1.values =
      Function.update s.values (s.requests a).reqArgs
        ((s.values (s.requests a).reqArgs).Set "fields"
          (Join (names ++
            (if (s.values (s.requests a).reqArgs).Get "fields" = "" then []
             else [(s.values (s.requests a).reqArgs).Get "fields"])) ",")) ∧
    (tRequest.Fields s (some a) names).1.requests =
      Function.update s.requests a
        { s.requests a with
          reqArgsBuilt := "?" ++ ((s.values (s.requests a).reqArgs).Set "fields"
            (Join (names ++
              (if (s.values (s.requests a).reqArgs).Get "fields" = "" then []
               else [(s.values (s.requests a).reqArgs).Get "fields"])) ",")).Encode } ∧
    (tRequest.Fields s (some a) names).1.clients = s.clients ∧
    (tRequest.Fields s (some a) names).1.nextRequest = s.nextRequest := by
  have hl : names.length ≠ 0 := by
    cases names with
    | nil => exact absurd rfl hn
    | cons x xs => simp
  by_cases hp : (s.values (s.requests a).reqArgs).Get "fields" = ""
  · simp [tRequest.Fields, hl, State.setRequest, State.setValues, hp]
  · simp [tRequest.Fields, hl, State.setRequest, State.setValues, hp]

/-! ## Construction: the default instance and the parameter map -/

/-- A parameter closure leaves the default instance alone, keeps the map of
the baseline template and keeps that map empty or holding only `fields`. -/
theorem tClientParam.call_map (f : tClientParam) (s s1 : State) (c r : Addr)
    (hb : (s.clients c).baseReq = some r)
    (hv : (s.values (s.requests r).reqArgs).onlyFields)
    (h : f.call s (some c) = some s1) :
    s1.DefaultClient = s.DefaultClient ∧
    (s1.requests r).reqArgs = (s.requests r).reqArgs ∧
    (s1.values (s.requests r).reqArgs).onlyFields := by
  cases f with
  | token tok =>
    simp only [tClientParam.call, hb, Option.some.injEq] at h
    subst h
    exact ⟨rfl, by simp [State.setRequest], hv⟩
  | disableFirstMeCall =>
    simp only [tClientParam.call, Option.some.injEq] at h
    subst h
    exact ⟨rfl, rfl, hv⟩
  | useHTTPS is =>
    simp only [tClientParam.call, hb, Option.some.injEq] at h
    subst h
    cases is <;> exact ⟨rfl, by simp [tRequest.UseHTTPS, State.setRequest, State.setClient], hv⟩
  | fields names =>
    simp only [tClientParam.call, hb, Option.some.injEq] at h
    subst h
    by_cases hn : names = []
    · subst hn
      exact ⟨rfl, rfl, hv⟩
    · obtain ⟨f1, f2, -, -⟩ := tRequest.Fields_spec s r names hn
      refine ⟨?_, ?_, ?_⟩
      · have hl : names.length ≠ 0 := fun h0 => hn (List.length_eq_zero.mp h0)
        simp [tRequest.Fields, hl, State.setRequest, State.setValues, State.setClient]
      · simp [State.setClient, f2]
      · simp only [State.setClient, f1, Function.update_same]
        exact Values.Set_fields_onlyFields hv _
  | enableSecurity =>
    simp only [tClientParam.call, hb, Option.some.injEq] at h
    subst h
    exact ⟨rfl, by simp [tRequest.EnableSecuity, State.setRequest, State.setClient], hv⟩

theorem Client.applyParams_map (c r : Addr) (params : List Param) :
    ∀ (s s1 : State), (s.clients c).baseReq = some r →
      (s.values (s.requests r).reqArgs).onlyFields →
      Client.applyParams (some c) params s = some s1 →
      s1.DefaultClient = s.DefaultClient ∧
      (s1.requests r).reqArgs = (s.requests r).reqArgs ∧
      (s1.values (s.requests r).reqArgs).onlyFields := by
  induction params with
  | nil =>
    intro s s1 _ hv h
    simp only [Client.applyParams, Option.some.injEq] at h
    subst h
    exact ⟨rfl, rfl, hv⟩
  | cons p rest ih =>
    intro s s1 hb hv h
    cases p with
    | clientParam v =>
      cases v with
      | none => exact ih s s1 hb hv (by simpa [Client.applyParams] using h)
      | some f =>
        obtain ⟨s0, g1, g2, -, -, -⟩ := tClientParam.call_inv f s c r hb
        obtain ⟨m1, m2, m3⟩ := tClientParam.call_map f s s0 c r hb hv g1
        have h2 : Client.applyParams (some c) rest s0 = some s1 := by
          simpa [Client.applyParams, g1] using h
        obtain ⟨k1, k2, k3⟩ := ih s0 s1 g2 (by rw [m2]; exact m3) h2
        exact ⟨by rw [k1, m1], by rw [k2, m2], by rw [← m2]; exact k3⟩
    | nil | string v | bytes v | httpClient v | httpClientPtr v | other =>
      exact ih s s1 hb hv (by simpa [Client.applyParams] using h)

theorem New.withToken_frame (s : State) (r : Addr) (params : List Param) :
    (New.withToken s r params).clients = s.clients ∧
    (New.withToken s r params).values = s.values ∧
    (New.withToken s r params).DefaultClient = s.DefaultClient ∧
    (New.withToken s r params).nextRequest = s.nextRequest ∧
    ((New.withToken s r params).requests r).reqArgs = (s.requests r).reqArgs := by
  unfold New.withToken
  split <;> simp [State.setRequest]

/-- After the defaults of `New` the baseline template keeps its token and its
map, the map holds `access_key`, `output` and the `fields` the closures left,
and the built query string is `?` and the encoding of that map. -/
theorem New.defaults_map (s : State) (r : Addr) (params : List Param)
    (hv : (s.values (s.requests r).reqArgs).onlyFields) :
    (New.defaults s r params).DefaultClient = s.DefaultClient ∧
    ((New.defaults s r params).requests r).reqArgs = (s.requests r).reqArgs ∧
    ((New.defaults s r params).requests r).token = (s.requests r).token ∧
    (∃ f, ((New.defaults s r params).values (s.requests r).reqArgs).hasParams
      (s.requests r).token f) ∧
    ((New.defaults s r params).requests r).reqArgsBuilt =
      "?" ++ ((New.defaults s r params).values (s.requests r).reqArgs).Encode := by
  obtain ⟨f, hf⟩ := Values.hasParams_of_onlyFields hv (s.requests r).token
  by_cases h1 : (s.requests r).client = none <;>
    by_cases h2 : extractHttpClient params = none <;>
    by_cases h3 : (s.requests r).endpoint = "" <;>
    refine ⟨?_, ?_, ?_, ⟨f, ?_⟩, ?_⟩ <;>
    simp [New.defaults, State.setRequest, State.setValues, h1, h2, h3, hf]

/-- `New` after its parameter closures, in terms of the memory they left. -/
theorem New_unfold (env : Env) (s0 sA : State) (params : List Param) (r : Addr)
    (hA : Client.applyParams (some s0.nextClient) params s0.newClient.1 = some sA)
    (hb : (sA.clients s0.nextClient).baseReq = some r) :
    New env s0 params =
      if ((New.withToken sA r params).requests r).token = "" then
        some (New.withToken sA r params, none,
          some (.errorf "Token argument (string or []byte) is required"))
      else
        match (if ((New.defaults (New.withToken sA r params) r params).clients
              s0.nextClient).skipInitFetchMe = false then
            (Client.Me env (New.defaults (New.withToken sA r params) r params)
              (some s0.nextClient) []).map fun out => (out.1, out.2.2)
          else some (New.defaults (New.withToken sA r params) r params, none)) with
        | none => none
        | some (s, some err) =>
          some (s, none, some (.errorf (Sprintf "Test request error (%s)" [err.Error])))
        | some (s, none) =>
          some (if s.DefaultClient = none then
            { s with DefaultClient := some s0.nextClient } else s, some s0.nextClient, none) := by
  simp only [New, (State.newClient_spec s0).1, hA, hb, New.withToken]

/-- Everything `New` establishes.  It returns; with an error the client is
nil and the default instance is as before; without one the client is the new
one, the default instance is the new client when there was none and is as
before otherwise, and the baseline template of the client is the new
template, whose map holds `access_key` with its token, `output=json` and
possibly `fields`, and whose built query string encodes that map. -/
theorem New_established (env : Env) (s0 : State) (params : List Param) :
    ∃ s c err, New env s0 params = some (s, c, err) ∧
      (err ≠ none → c = none ∧ s.DefaultClient = s0.DefaultClient) ∧
      (err = none → c = some s0.nextClient ∧
        s.DefaultClient =
          (if s0.DefaultClient = none then some s0.nextClient else s0.DefaultClient) ∧
        (s.clients s0.nextClient).baseReq = some s0.nextRequest ∧
        s.nextRequest = s0.nextRequest + 1 ∧
        (∃ f, (s.values (s.requests s0.nextRequest).reqArgs).hasParams
          (s.requests s0.nextRequest).token f) ∧
        (s.requests s0.nextRequest).reqArgsBuilt =
          "?" ++ (s.values (s.requests s0.nextRequest).reqArgs).Encode) := by
  obtain ⟨n1, n2, n3, n4, n5⟩ := State.newClient_spec s0
  have n6 : s0.newClient.1.DefaultClient = s0.DefaultClient := rfl
  have n7 : (s0.newClient.1.values (s0.newClient.1.requests s0.nextRequest).reqArgs).onlyFields := by
    left
    simp [State.newClient]
  obtain ⟨sA, a1, a2, a3, -, -⟩ :=
    Client.applyParams_inv s0.nextClient s0.nextRequest params s0.newClient.1 n2
  obtain ⟨b1, b2, b3⟩ :=
    Client.applyParams_map s0.nextClient s0.nextRequest params s0.newClient.1 sA n2 n7 a1
  rw [← b2] at b3
  obtain ⟨t1, t2, t3, t4, t5⟩ := New.withToken_frame sA s0.nextRequest params
  have hvT : ((New.withToken sA s0.nextRequest params).values
      ((New.withToken sA s0.nextRequest params).requests s0.nextRequest).reqArgs).onlyFields := by
    rw [t2, t5]
    exact b3
  obtain ⟨d1, d2, d3, ⟨f, d4⟩, d5⟩ :=
    New.defaults_map (New.withToken sA s0.nextRequest params) s0.nextRequest params hvT
  obtain ⟨e1, e2, -⟩ :=
    New.defaults_frame (New.withToken sA s0.nextRequest params) s0.nextRequest params
  rw [← d2] at d4 d5
  rw [← d3] at d4
  have hD : (New.defaults (New.withToken sA s0.nextRequest params) s0.nextRequest
      params).DefaultClient = s0.DefaultClient := by
    rw [d1, t3, b1, n6]
  have hB : ((New.defaults (New.withToken sA s0.nextRequest params) s0.nextRequest
      params).clients s0.nextClient).baseReq = some s0.nextRequest := by
    rw [e1, t1]
    exact a2
  have hN : (New.defaults (New.withToken sA s0.nextRequest params) s0.nextRequest
      params).nextRequest = s0.nextRequest + 1 := by
    rw [e2, t4, a3, n3]
  rw [New_unfold env s0 sA params s0.nextRequest a1 a2]
  generalize New.defaults (New.withToken sA s0.nextRequest params) s0.nextRequest params = sD
    at d4 d5 hD hB hN
  by_cases ht : ((New.withToken sA s0.nextRequest params).requests s0.nextRequest).token = ""
  · rw [if_pos ht]
    exact ⟨_, _, _, rfl, fun _ => ⟨rfl, by rw [t3, b1, n6]⟩, by simp⟩
  · rw [if_neg ht]
    by_cases hs : (sD.clients s0.nextClient).skipInitFetchMe = false
    · rw [if_pos hs]
      obtain ⟨s1, rec, err, hMe, m1, m2, m3, -, -, m6, m7, -⟩ :=
        Client.Me_outcome env sD s0.nextClient s0.nextRequest [] hB
      rw [hMe]
      cases err with
      | some e => exact ⟨_, _, _, rfl, fun _ => ⟨rfl, by rw [m6, hD]⟩, by simp⟩
      | none =>
        simp only [Option.map_some']
        refine ⟨_, _, _, rfl, by simp, fun _ => ⟨rfl, ?_, ?_, ?_, ⟨f, ?_⟩, ?_⟩⟩
        · rw [m6, hD]
          split <;> simp_all
        · split <;> simp [(m7 s0.nextClient).1, hB]
        · split <;> simp [m2, hN]
        · split <;> simp only [m1, m3] <;> exact d4
        · split <;> simp only [m1, m3] <;> exact d5
    · rw [if_neg hs]
      refine ⟨_, _, _, rfl, by simp, fun _ => ⟨rfl, ?_, ?_, ?_, ⟨f, ?_⟩, ?_⟩⟩
      · rw [hD]
        split <;> simp_all
      · split <;> simp [hB]
      · split <;> simp [hN]
      · split <;> exact d4
      · split <;> exact d5

/-- Claim C22: `Init` returns; when construction succeeds the default
instance becomes the newly built client, whatever it was, and when it fails
the default instance is as before.  `New` returns; it makes the newly built
client the default instance when construction succeeds and there was none,
and leaves the default instance as it was in every other case. -/
theorem C22_default_instance (env : Env) (s0 : State) (params : List Param) :
    (∃ s c err, New env s0 params = some (s, c, err) ∧
      (err = none → s0.DefaultClient = none →
        c = some s0.nextClient ∧ s.DefaultClient = some s0.nextClient) ∧
      (err ≠ none ∨ s0.DefaultClient ≠ none → s.DefaultClient = s0.DefaultClient)) ∧
    (∃ s err, Init env s0 params = some (s, err) ∧
      (err = none → s.DefaultClient = some s0.nextClient) ∧
      (err ≠ none → s.DefaultClient = s0.DefaultClient)) := by
  obtain ⟨s, c, err, h, he, hs⟩ := New_established env s0 params
  refine ⟨⟨s, c, err, h, ?_, ?_⟩, ?_⟩
  · intro h1 h2
    obtain ⟨k1, k2, -⟩ := hs h1
    exact ⟨k1, by rw [k2, if_pos h2]⟩
  · intro h1
    cases err with
    | some e => exact (he (by simp)).2
    | none =>
      obtain ⟨-, k2, -⟩ := hs rfl
      have h2 : s0.DefaultClient ≠ none := by
        rcases h1 with h1 | h1
        · exact absurd rfl h1
        · exact h1
      rw [k2, if_neg h2]
  · cases err with
    | some e =>
      refine ⟨s, some e, by simp only [Init, h], by simp, fun _ => (he (by simp)).2⟩
    | none =>
      obtain ⟨k1, -, -⟩ := hs rfl
      subst k1
      exact ⟨{ s with DefaultClient := some s0.nextClient }, none, by simp only [Init, h],
        fun _ => rfl, by simp⟩

/-- Claim C22 on a memory whose default instance is client 0: a failing and
a succeeding `Init`. -/
theorem C22_default_instance_witness :
    (∃ s err, Init testEnv testStateCached [.string "  "] = some (s, err) ∧
      (err = none → s.DefaultClient = some 1) ∧
      (err ≠ none → s.DefaultClient = some 0)) ∧
    (∃ s, Init testEnv testStateCached [.string "  "] =
      some (s, some (.errorf "Token argument (string or []byte) is required"))) ∧
    (∃ s, Init testEnv testStateCached [.string "tok2"] = some (s, none)) :=
  ⟨(C22_default_instance testEnv testStateCached [.string "  "]).2, ⟨_, rfl⟩, ⟨_, rfl⟩⟩

/-! ## The built query string of derived templates -/

theorem toNat_ofNat_cases (k : Nat) : (Char.ofNat k).toNat = k ∨ (Char.ofNat k).toNat = 0 := by
  unfold Char.ofNat
  by_cases h : k.isValidChar
  · left
    simp only [h, dite_true]
    rfl
  · right
    simp only [h, dite_false]
    rfl

theorem escapeByte_plain (b : Nat) : ∀ ch ∈ escapeByte b, ch.toNat ≠ 61 ∧ ch.toNat ≠ 38 := by
  have hx : ∀ n, (upperhex n).toNat ≠ 61 ∧ (upperhex n).toNat ≠ 38 := by
    intro n
    unfold upperhex
    split
    · rcases toNat_ofNat_cases (48 + n) with h | h <;> rw [h] <;> omega
    · rcases toNat_ofNat_cases (55 + n) with h | h <;> rw [h] <;> omega
  intro ch hch
  unfold escapeByte at hch
  split at hch
  · simp only [List.mem_singleton] at hch
    subst hch
    decide
  · split at hch
    · simp only [List.mem_cons, List.mem_singleton, List.not_mem_nil, or_false] at hch
      rcases hch with rfl | rfl | rfl
      · decide
      · exact hx _
      · exact hx _
    · rename_i h1 h2
      simp only [List.mem_singleton] at hch
      subst hch
      have h3 : shouldEscape b = false := by simpa using h2
      rcases toNat_ofNat_cases b with h | h <;> rw [h]
      · constructor <;> intro hb <;> subst hb <;> revert h3 <;> decide
      · decide

/-- An escaped value has no `=` and no `&`: those of an encoded query are
the ones written between and after the parameter names. -/
theorem QueryEscape_plain (x : String) :
    ∀ ch ∈ (QueryEscape x).data, ch ≠ '=' ∧ ch ≠ '&' := by
  intro ch hch
  simp only [QueryEscape, List.mem_flatMap] at hch
  obtain ⟨c, -, b, -, hb⟩ := hch
  obtain ⟨h1, h2⟩ := escapeByte_plain b ch hb
  constructor
  · intro h
    subst h
    exact h1 rfl
  · intro h
    subst h
    exact h2 rfl


theorem Client.R_spec (s : State) (c r : Addr) (hb : (s.clients c).baseReq = some r) :
    Client.R s (some c) =
      some ({ s with requests := Function.update s.requests s.nextRequest (s.requests r),
                     nextRequest := s.nextRequest + 1 }, some s.nextRequest) := by
  simp only [Client.R, Client.validate_of_baseReq hb, hb, tRequest.copy]

/-- The invariant of the templates derived from a client: they are allocated,
share one parameter map and one token, the map holds `access_key` with that
token, `output=json` and possibly `fields`, and the built query string of
each is that of the token and of some selector string. -/
theorem Derived.invariant {c : Addr} {s : State} {l : List Addr} (h : Derived c s l) :
    ∃ r m t, (s.clients c).baseReq = some r ∧ r ∈ l ∧
      (∃ f, (s.values m).hasParams t f) ∧
      ∀ a ∈ l, a < s.nextRequest ∧ (s.requests a).reqArgs = m ∧ (s.requests a).token = t ∧
        ∃ f, (s.requests a).reqArgsBuilt = builtQuery t f := by
  induction h with
  | built env s0 s params r hNew hb =>
    obtain ⟨s2, c2, err, h, -, hs⟩ := New_established env s0 params
    rw [h] at hNew
    simp only [Option.some.injEq, Prod.mk.injEq] at hNew
    obtain ⟨rfl, rfl, rfl⟩ := hNew
    obtain ⟨hc, -, k3, k4, ⟨f, k5⟩, k6⟩ := hs rfl
    simp only [Option.some.injEq] at hc
    subst hc
    rw [k3] at hb
    simp only [Option.some.injEq] at hb
    subst hb
    refine ⟨s0.nextRequest, _, _, k3, List.mem_singleton_self _, ⟨f, k5⟩, ?_⟩
    intro a ha
    rw [List.mem_singleton] at ha
    subst ha
    exact ⟨by rw [k4]; exact Nat.lt_succ_self _, rfl, rfl, f,
      by rw [k6]; exact Values.built_of_hasParams k5⟩
  | clone s s1 l t _ hR ih =>
    obtain ⟨r, m, tk, hb, hr, hm, hall⟩ := ih
    rw [Client.R_spec s c r hb] at hR
    simp only [Option.some.injEq, Prod.mk.injEq] at hR
    obtain ⟨rfl, rfl⟩ := hR
    refine ⟨r, m, tk, hb, List.mem_cons_of_mem _ hr, hm, ?_⟩
    intro a ha
    rcases List.mem_cons.mp ha with rfl | ha
    · obtain ⟨-, h2, h3, h4⟩ := hall r hr
      simp only [Function.update_same]
      exact ⟨Nat.lt_succ_self _, h2, h3, h4⟩
    · obtain ⟨h1, h2, h3, h4⟩ := hall a ha
      simp only [Function.update_noteq (Nat.ne_of_lt h1)]
      exact ⟨Nat.lt_succ_of_lt h1, h2, h3, h4⟩
  | useHTTPS s l a is _ ha ih =>
    obtain ⟨r, m, tk, hb, hr, hm, hall⟩ := ih
    have hs : ∀ b, ((tRequest.UseHTTPS s (some a) is).1.requests b).reqArgs =
          (s.requests b).reqArgs ∧
        ((tRequest.UseHTTPS s (some a) is).1.requests b).token = (s.requests b).token ∧
        ((tRequest.UseHTTPS s (some a) is).1.requests b).reqArgsBuilt =
          (s.requests b).reqArgsBuilt := by
      intro b
      by_cases hba : b = a
      · subst hba
        cases is <;> simp [tRequest.UseHTTPS, State.setRequest]
      · cases is <;> simp [tRequest.UseHTTPS, State.setRequest, Function.update, hba]
    have hf : (tRequest.UseHTTPS s (some a) is).1.clients = s.clients ∧
        (tRequest.UseHTTPS s (some a) is).1.values = s.values ∧
        (tRequest.UseHTTPS s (some a) is).1.nextRequest = s.nextRequest := by
      cases is <;> simp [tRequest.UseHTTPS, State.setRequest]
    refine ⟨r, m, tk, by rw [hf.1]; exact hb, hr, by rw [hf.2.1]; exact hm, ?_⟩
    intro b hbl
    obtain ⟨h1, h2, h3, h4⟩ := hall b hbl
    obtain ⟨g1, g2, g3⟩ := hs b
    exact ⟨by rw [hf.2.2]; exact h1, by rw [g1]; exact h2, by rw [g2]; exact h3,
      by rw [g3]; exact h4⟩
  | enableSecuity s l a is _ ha ih =>
    obtain ⟨r, m, tk, hb, hr, hm, hall⟩ := ih
    have hs : ∀ b, ((tRequest.EnableSecuity s (some a) is).1.requests b).reqArgs =
          (s.requests b).reqArgs ∧
        ((tRequest.EnableSecuity s (some a) is).1.requests b).token = (s.requests b).token ∧
        ((tRequest.EnableSecuity s (some a) is).1.requests b).reqArgsBuilt =
          (s.requests b).reqArgsBuilt := by
      intro b
      by_cases hba : b = a
      · subst hba
        cases is <;> simp [tRequest.EnableSecuity, State.setRequest]
      · cases is <;> simp [tRequest.EnableSecuity, State.setRequest, Function.update, hba]
    have hf : (tRequest.EnableSecuity s (some a) is).1.clients = s.clients ∧
        (tRequest.EnableSecuity s (some a) is).1.values = s.values ∧
        (tRequest.EnableSecuity s (some a) is).1.nextRequest = s.nextRequest := by
      cases is <;> simp [tRequest.EnableSecuity, State.setRequest]
    refine ⟨r, m, tk, by rw [hf.1]; exact hb, hr, by rw [hf.2.1]; exact hm, ?_⟩
    intro b hbl
    obtain ⟨h1, h2, h3, h4⟩ := hall b hbl
    obtain ⟨g1, g2, g3⟩ := hs b
    exact ⟨by rw [hf.2.2]; exact h1, by rw [g1]; exact h2, by rw [g2]; exact h3,
      by rw [g3]; exact h4⟩
  | fields s l a names _ ha ih =>
    obtain ⟨r, m, tk, hb, hr, ⟨f, hm⟩, hall⟩ := ih
    by_cases hn : names = []
    · subst hn
      exact ⟨r, m, tk, hb, hr, ⟨f, hm⟩, hall⟩
    · obtain ⟨f1, f2, f3, f4⟩ := tRequest.Fields_spec s a names hn
      obtain ⟨-, a2, a3, -⟩ := hall a ha
      rw [a2] at f1 f2
      have hm2 := Values.Set_fields_hasParams hm
        (Join (names ++ (if (s.values m).Get "fields" = "" then []
          else [(s.values m).Get "fields"])) ",")
      refine ⟨r, m, tk, by rw [f3]; exact hb, hr, ⟨_, by rw [f1, Function.update_same]; exact hm2⟩,
        ?_⟩
      intro b hbl
      obtain ⟨h1, h2, h3, h4⟩ := hall b hbl
      rw [f4, f2]
      by_cases hba : b = a
      · subst hba
        simp only [Function.update_same]
        exact ⟨h1, h2, h3, _, Values.built_of_hasParams hm2⟩
      · simp only [Function.update_noteq hba]
        exact ⟨h1, h2, h3, h4⟩

/-- Claim C24: every template derived from a client built by `New`, by any
sequence of `R`, `UseHTTPS`, `EnableSecuity` and `Fields`, has the token `t`
of the client, and its built query string is `?access_key=` and the escaped
`t`, then `&fields=` and an escaped selector string when there is one, then
`&output=json`.  An escaped value has no `=` and no `&`, so these are all the
parameters of that string and `security` is not one of them.  The target of
a request is the endpoint, the path segment and that string, followed by
`&security=1` exactly when the security flag is set. -/
theorem C24_built_query_of_derived (c : Addr) (s : State) (l : List Addr)
    (h : Derived c s l) :
    (∃ r t, (s.clients c).baseReq = some r ∧ (s.requests r).token = t ∧
      ∀ a ∈ l, (s.requests a).token = t ∧
        ∃ f, (s.requests a).reqArgsBuilt = builtQuery t f ∧
          ∀ method, (s.requests a).target method =
            (s.requests a).endpoint ++ method ++ builtQuery t f ++
              (if (s.requests a).securityEnabled = true then "&security=1" else "")) ∧
    (∀ x, ∀ ch ∈ (QueryEscape x).data, ch ≠ '=' ∧ ch ≠ '&') := by
  obtain ⟨r, m, t, hb, hr, -, hall⟩ := Derived.invariant h
  refine ⟨⟨r, t, hb, (hall r hr).2.2.1, ?_⟩, QueryEscape_plain⟩
  intro a ha
  obtain ⟨-, -, h3, f, h4⟩ := hall a ha
  refine ⟨h3, f, h4, fun method => ?_⟩
  rw [tRequest.target_eq, h4]

/-- Claim C24 on a client built with a token that needs escaping and an
initial selector, after `R()`, `Fields("city")` and `EnableSecuity(true)` on
the clone. -/
theorem C24_built_query_of_derived_witness :
    Derived 0 testStateDerived [1, 0] ∧
    (∃ r t, (testStateDerived.clients 0).baseReq = some r ∧
      (testStateDerived.requests r).token = t ∧
      ∀ a ∈ [1, 0], (testStateDerived.requests a).token = t ∧
        ∃ f, (testStateDerived.requests a).reqArgsBuilt = builtQuery t f ∧
          ∀ method, (testStateDerived.requests a).target method =
            (testStateDerived.requests a).endpoint ++ method ++ builtQuery t f ++
              (if (testStateDerived.requests a).securityEnabled = true then "&security=1"
               else "")) ∧
    (testStateDerived.requests 1).reqArgsBuilt = "?access_key=t+k&fields=city%2Cip&output=json" ∧
    (testStateDerived.requests 0).reqArgsBuilt = "?access_key=t+k&fields=ip&output=json" ∧
    (testStateDerived.requests 1).target "check" =
      "http://api.ipstack.com/check?access_key=t+k&fields=city%2Cip&output=json&security=1" :=
  have hd : Derived 0 testStateDerived [1, 0] :=
    Derived.enableSecuity _ _ 1 true
      (Derived.fields _ _ 1 ["city"]
        (Derived.clone testStateFields _ [0] 1
          (Derived.built testEnv State.empty testStateFields
            [.string "t k", .clientParam (some (ParamFields ["ip"])),
              .clientParam (some ParamDisableFirstMeCall)] 0 rfl rfl)
          rfl)
        (List.mem_cons_self _ _))
      (List.mem_cons_self _ _)
  ⟨hd, (C24_built_query_of_derived 0 testStateDerived [1, 0] hd).1, by decide, by decide,
    by decide⟩

/-! ## Selectors carried over between clones -/

/-- One `c.R().Fields(names...)` on a client whose baseline template is
allocated and whose map holds `access_key`, `output` and the selector `f`:
the clone gets the selector string made of the names and `f`, in its map (the
one the baseline uses) and in its built query string, and the client is as
before. -/
theorem Client.R_fields_step (s : State) (c r m : Addr) (t : String) (f : Option String)
    (names : List String) (hb : (s.clients c).baseReq = some r) (hlt : r < s.nextRequest)
    (hm : (s.requests r).reqArgs = m) (ht : (s.requests r).token = t)
    (hp : (s.values m).hasParams t f) (hn : names ≠ []) :
    ∃ s1 t1, Client.R s (some c) = some (s1, some t1) ∧
      ((tRequest.Fields s1 (some t1) names).1.clients c).baseReq = some r ∧
      r < (tRequest.Fields s1 (some t1) names).1.nextRequest ∧
      ((tRequest.Fields s1 (some t1) names).1.requests r).reqArgs = m ∧
      ((tRequest.Fields s1 (some t1) names).1.requests r).token = t ∧
      ((tRequest.Fields s1 (some t1) names).1.values m).hasParams t
        (some (Join (names ++ (if f.getD "" = "" then [] else [f.getD ""])) ",")) ∧
      ((tRequest.Fields s1 (some t1) names).1.requests t1).reqArgs = m ∧
      ((tRequest.Fields s1 (some t1) names).1.requests t1).reqArgsBuilt =
        builtQuery t (some (Join (names ++ (if f.getD "" = "" then [] else [f.getD ""])) ",")) := by
  have hne : r ≠ s.nextRequest := Nat.ne_of_lt hlt
  refine ⟨_, _, Client.R_spec s c r hb, ?_⟩
  obtain ⟨f1, f2, f3, f4⟩ := tRequest.Fields_spec
    { s with requests := Function.update s.requests s.nextRequest (s.requests r),
             nextRequest := s.nextRequest + 1 } s.nextRequest names hn
  simp only [Function.update_same, hm, Values.Get_fields_of_hasParams hp] at f1 f2
  have hp2 := Values.Set_fields_hasParams hp
    (Join (names ++ (if f.getD "" = "" then [] else [f.getD ""])) ",")
  rw [f1, f2, f3, f4]
  refine ⟨hb, Nat.lt_succ_of_lt hlt, ?_, ?_, ?_, ?_, ?_⟩
  · simp [Function.update, hne, hm]
  · simp [Function.update, hne, ht]
  · simp only [Function.update_same]
    exact hp2
  · simp [hm]
  · simp only [Function.update_same]
    exact Values.built_of_hasParams hp2

/-- Claim C25: for a client built by `New` whose baseline has no selector,
after `c.R().Fields("a")` the template returned by `c.R().Fields("b")` has the
selector string `b,a` in its map, and its built query string is that of the
client's token with `fields=b%2Ca`. -/
theorem C25_selectors_carry_over (env : Env) (s0 s : State) (params : List Param) (c : Addr)
    (hNew : New env s0 params = some (s, some c, none))
    (hf : Client.baseFields s c = "") :
    ∃ r s1 t1 s3 t2, (s.clients c).baseReq = some r ∧
      Client.R s (some c) = some (s1, some t1) ∧
      Client.R (tRequest.Fields s1 (some t1) ["a"]).1 (some c) = some (s3, some t2) ∧
      ((tRequest.Fields s3 (some t2) ["b"]).1.values
        ((tRequest.Fields s3 (some t2) ["b"]).1.requests t2).reqArgs).Get "fields" = "b,a" ∧
      ((tRequest.Fields s3 (some t2) ["b"]).1.requests t2).reqArgsBuilt =
        "?access_key=" ++ QueryEscape (s.requests r).token ++ "&fields=b%2Ca&output=json" := by
  obtain ⟨s2, c2, err, h, -, hs⟩ := New_established env s0 params
  rw [h] at hNew
  simp only [Option.some.injEq, Prod.mk.injEq] at hNew
  obtain ⟨rfl, rfl, rfl⟩ := hNew
  obtain ⟨hc, -, k3, k4, ⟨f, k5⟩, -⟩ := hs rfl
  simp only [Option.some.injEq] at hc
  subst hc
  have hf0 : f.getD "" = "" := by
    rw [← Values.Get_fields_of_hasParams k5]
    simpa [Client.baseFields, k3] using hf
  obtain ⟨s1, t1, p1, p2, p3, p4, p5, p6, -, -⟩ :=
    Client.R_fields_step s2 s0.nextClient s0.nextRequest _ _ f ["a"] k3
      (by rw [k4]; exact Nat.lt_succ_self _) rfl rfl k5 (by simp)
  rw [hf0] at p6
  obtain ⟨s3, t2, q1, -, -, -, -, q6, q7, q8⟩ :=
    Client.R_fields_step (tRequest.Fields s1 (some t1) ["a"]).1 s0.nextClient s0.nextRequest _ _
      _ ["b"] p2 p3 p4 p5 p6 (by simp)
  refine ⟨s0.nextRequest, s1, t1, s3, t2, k3, p1, q1, ?_, ?_⟩
  · rw [q7, Values.Get_fields_of_hasParams q6]
    decide
  · rw [q8]
    have e : QueryEscape (Join (["b"] ++
        (if (some (Join (["a"] ++ (if ("" : String) = "" then [] else [""])) ",")).getD "" = ""
          then [] else
          [(some (Join (["a"] ++ (if ("" : String) = "" then [] else [""])) ",")).getD ""]))
        ",") = "b%2Ca" := by decide
    rw [builtQuery, e]
    apply String.ext
    simp [String.data_append]

/-- Claim C25 on the client built by `New("tok", ParamDisableFirstMeCall())`. -/
theorem C25_selectors_carry_over_witness :
    New testEnv State.empty [.string "tok", .clientParam (some ParamDisableFirstMeCall)] =
      some (testState, some 0, none) ∧
    Client.baseFields testState 0 = "" ∧
    ∃ r s1 t1 s3 t2, (testState.clients 0).baseReq = some r ∧
      Client.R testState (some 0) = some (s1, some t1) ∧
      Client.R (tRequest.Fields s1 (some t1) ["a"]).1 (some 0) = some (s3, some t2) ∧
      ((tRequest.Fields s3 (some t2) ["b"]).1.values
        ((tRequest.Fields s3 (some t2) ["b"]).1.requests t2).reqArgs).Get "fields" = "b,a" ∧
      ((tRequest.Fields s3 (some t2) ["b"]).1.requests t2).reqArgsBuilt =
        "?access_key=" ++ QueryEscape (testState.requests r).token ++
          "&fields=b%2Ca&output=json" :=
  ⟨rfl, by decide,
    C25_selectors_carry_over testEnv State.empty testState
      [.string "tok", .clientParam (some ParamDisableFirstMeCall)] 0 rfl (by decide)⟩

/-! ## Terminal outcomes of the public lookups -/

/-- Stage 1 without an error: the envelope had no error and is as before. -/
theorem tResponse.CheckError_ok (env : Env) (r : tResponse)
    (h : (tResponse.CheckError env (some r)).2 = none) :
    r.Error = none ∧ (tResponse.CheckError env (some r)).1 = some r := by
  cases hE : r.Error with
  | some e => simp [tResponse.CheckError, hE] at h
  | none =>
    have hr : ({ r with Error := none } : tResponse) = r := by
      cases r
      simp only [tResponse.mk.injEq, true_and]
      exact hE.symm
    cases hU : (env.UnmarshalError (r.RawData.getD "") ⟨true, ⟨0, "", ""⟩⟩).2 with
    | some m => simp [tResponse.CheckError, hE, hU] at h
    | none =>
      by_cases hS : (env.UnmarshalError (r.RawData.getD "") ⟨true, ⟨0, "", ""⟩⟩).1.Success = false
      · simp [tResponse.CheckError, hE, hU, hS] at h
      · exact ⟨rfl, by simp [tResponse.CheckError, hE, hU, hS, hr]⟩

/-- A call of `Me` that executes and fails in the request or in stage 1
returns that error with the record cached before, and the memory is the one
the request left: records and clients are as before. -/
theorem Client.Me_request_failure (env : Env) (s sx : State) (a r : Addr)
    (forceFetch : List Bool) (rr : tResponse) (e : GoError)
    (hb : (s.clients a).baseReq = some r)
    (hx : (s.clients a).me = none ∨ forceFetch.head? = some true)
    (hreq : tRequest.Me env s (some r) = some (sx, rr))
    (hchk : (tResponse.CheckError env (some rr)).2 = some e) :
    Client.Me env s (some a) forceFetch = some (sx, (s.clients a).me, some e) ∧
    sx.records = s.records ∧ sx.clients = s.clients := by
  obtain ⟨l, rr1, h⟩ := tRequest.Me_frame env s (some r)
  rw [h] at hreq
  simp only [Option.some.injEq, Prod.mk.injEq] at hreq
  obtain ⟨rfl, rfl⟩ := hreq
  refine ⟨?_, rfl, rfl⟩
  simp only [Client.Me, Client.validate_of_baseReq hb, hb]
  rw [if_neg (Client.not_fast_path hx)]
  simp only [h, hchk]

/-- Claim C3 fails as stated: after a self-record has been cached, a forced
`Me` whose request fails returns the cached record together with the error;
and `Client.IPs` answered with the body `null` returns a nil list together
with a nil error. -/
theorem C3_counterexample :
    (∃ s c s1 rec err,
      New testEnv State.empty [.string "tok", .httpClient 7] = some (s, some c, none) ∧
      Client.Me testEnv s (some c) [true] = some (s1, some rec, some err)) ∧
    (∃ s c s1,
      New testEnv State.empty
        [.string "tok", .httpClient 6, .clientParam (some ParamDisableFirstMeCall)] =
          some (s, some c, none) ∧
      Client.IPs testEnv s (some c) ["1.2.3.4"] = some (s1, none, none)) :=
  ⟨⟨_, 0, _, 0, .lib "connection refused", rfl, rfl⟩, ⟨_, 0, _, rfl, rfl⟩⟩

/-- Claim C3, amended: every public lookup returns.  `Client.IP` returns
either a record with a nil error or a nil record with an error.
`Client.IPs` returns a nil list whenever it returns an error, and with a nil
error the slice its decoder made of the body of the response, which had no
error.  `Client.Me` returns nil with
the error when the client is not valid; otherwise, when it returns an error,
the record returned with it is the one the client held before the call (nil
when none was) and the client still holds it, and when the call failed in the
request or in stage 1 the error is that failure and the records and clients
are exactly as before the call. -/
theorem C3_lookup_outcomes (env : Env) (s : State) (c : Option Addr) :
    (∀ ip, ∃ s1 rec err, Client.IP env s c ip = some (s1, rec, err) ∧
      ((err = none ∧ rec ≠ none) ∨ (err ≠ none ∧ rec = none))) ∧
    (∀ ips, ∃ s1 l err, Client.IPs env s c ips = some (s1, l, err) ∧
      (err ≠ none → l = none) ∧
      (err = none → ∃ a rr, c = some a ∧
        tRequest.IPs env s (s.clients a).baseReq ips = some (s1, rr) ∧
        rr.Error = none ∧
        (env.UnmarshalList (rr.RawData.getD "") (some [])).2 = none ∧
        l = (env.UnmarshalList (rr.RawData.getD "") (some [])).1)) ∧
    (∀ ff, ∃ s1 rec err, Client.Me env s c ff = some (s1, rec, err) ∧
      (Client.validate s c ≠ none → rec = none ∧ err ≠ none) ∧
      (∀ a, c = some a → Client.validate s c = none → err ≠ none →
        rec = (s.clients a).me ∧ (s1.clients a).me = (s.clients a).me) ∧
      (∀ a sx rr e, c = some a → Client.validate s c = none →
        ((s.clients a).me = none ∨ ff.head? = some true) →
        tRequest.Me env s (s.clients a).baseReq = some (sx, rr) →
        (tResponse.CheckError env (some rr)).2 = some e →
        err = some e ∧ rec = (s.clients a).me ∧
          s1.records = s.records ∧ s1.clients = s.clients)) := by
  refine ⟨?_, ?_, ?_⟩
  · intro ip
    cases c with
    | none => exact ⟨_, _, _, rfl, by simp⟩
    | some a =>
      cases hb : (s.clients a).baseReq with
      | none =>
        simp only [Client.IP, Client.validate_of_no_baseReq hb]
        exact ⟨_, _, _, rfl, by simp⟩
      | some r =>
        obtain ⟨l, rr, h⟩ := tRequest.IP_frame env s (some r) ip
        simp only [Client.IP, Client.validate_of_baseReq hb, hb, h]
        cases h1 : (tResponse.CheckError env (some rr)).2 with
        | some e => exact ⟨_, _, _, rfl, by simp⟩
        | none =>
          obtain ⟨d1, hd⟩ := tResponse.DecodeTo_fst_some env.UnmarshalRecord
            (tResponse.CheckError env (some rr)).1 Response.zero
          cases h2 : (tResponse.DecodeTo env.UnmarshalRecord
            (tResponse.CheckError env (some rr)).1 (some Response.zero)).2 with
          | some e => exact ⟨_, _, _, rfl, by simp⟩
          | none => exact ⟨_, _, _, rfl, by simp [hd]⟩
  · intro ips
    cases c with
    | none => exact ⟨_, _, _, rfl, by simp, by simp⟩
    | some a =>
      cases hb : (s.clients a).baseReq with
      | none =>
        simp only [Client.IPs, Client.validate_of_no_baseReq hb]
        exact ⟨_, _, _, rfl, by simp, by simp⟩
      | some r =>
        obtain ⟨l, rr, h⟩ := tRequest.IPs_frame env s (some r) ips
        simp only [Client.IPs, Client.validate_of_baseReq hb, hb, h]
        cases h1 : (tResponse.CheckError env (some rr)).2 with
        | some e => exact ⟨_, _, _, rfl, by simp, by simp⟩
        | none =>
          obtain ⟨e0, e1⟩ := tResponse.CheckError_ok env rr h1
          rw [e1]
          simp only [tResponse.DecodeTo, e0]
          cases h2 : (env.UnmarshalList (rr.RawData.getD "") (some [])).2 with
          | some e => exact ⟨_, _, _, rfl, by simp, by simp⟩
          | none =>
            exact ⟨_, _, _, rfl, by simp, fun _ => ⟨a, rr, rfl, by rw [hb]; exact h, e0, h2, rfl⟩⟩
  · intro ff
    cases c with
    | none =>
      exact ⟨_, _, _, rfl, by simp [Client.validate], fun a h => Option.noConfusion h,
        fun a sx rr e h => Option.noConfusion h⟩
    | some a =>
      cases hb : (s.clients a).baseReq with
      | none =>
        simp only [Client.Me, Client.validate_of_no_baseReq hb]
        exact ⟨_, _, _, rfl, by simp, by simp, by simp⟩
      | some r =>
        obtain ⟨s1, rec, err, hMe, -, -, -, -, -, -, -, he⟩ :=
          Client.Me_outcome env s a r ff hb
        refine ⟨s1, rec, err, hMe, ?_, ?_, ?_⟩
        · intro hv
          exact absurd (Client.validate_of_baseReq hb) hv
        · intro a1 ha _ hne
          cases ha
          obtain ⟨k1, k2⟩ := he hne
          exact ⟨k1, by rw [k2]⟩
        · intro a1 sx rr e ha _ hx hreq hchk
          cases ha
          rw [hb] at hreq
          obtain ⟨m1, m2, m3⟩ :=
            Client.Me_request_failure env s sx a r ff rr e hb hx hreq hchk
          rw [m1] at hMe
          simp only [Option.some.injEq, Prod.mk.injEq] at hMe
          obtain ⟨rfl, rfl, rfl⟩ := hMe
          exact ⟨rfl, rfl, m2, m3⟩

/-- Claim C3, amended, on a forced `Me` that fails in the request after a
record was cached. -/
theorem C3_lookup_outcomes_witness :
    ∃ s1 rec err, Client.Me testEnv testStateStale (some 0) [true] = some (s1, rec, err) ∧
      (Client.validate testStateStale (some 0) ≠ none → rec = none ∧ err ≠ none) ∧
      (∀ a, some 0 = some a → Client.validate testStateStale (some 0) = none → err ≠ none →
        rec = (testStateStale.clients a).me ∧
          (s1.clients a).me = (testStateStale.clients a).me) ∧
      (∀ a sx rr e, some 0 = some a → Client.validate testStateStale (some 0) = none →
        ((testStateStale.clients a).me = none ∨ [true].head? = some true) →
        tRequest.Me testEnv testStateStale (testStateStale.clients a).baseReq = some (sx, rr) →
        (tResponse.CheckError testEnv (some rr)).2 = some e →
        err = some e ∧ rec = (testStateStale.clients a).me ∧
          s1.records = testStateStale.records ∧ s1.clients = testStateStale.clients) :=
  (C3_lookup_outcomes testEnv testStateStale (some 0)).2.2 [true]

end Ipstack
